import Mathlib

/-!
Verification development for the Bing-based email-hunt scraping controller
(`src/controllers/scraping.controller.js`).

The pure helpers (`extractEmails`, `classifyEmails`, `buildBingQueries`,
`resolveBingRedirect`, `isBlockedVariant`, `isLikelyHRPage`) are embedded
directly as executable Lean functions over `String`/`List Char`.  The
orchestrator `runBingEmailHunt` performs network I/O and HTML parsing through
external collaborators (`fetch`, cheerio); those are modelled by an `Oracle`
that supplies, for each SERP fetch and each page fetch, either a simulated
network error or the data the controller reads off the parsed document (raw
markup string, body text, anchor hrefs per selector, mailto hrefs, title).
All control flow, accumulator updates, budget checks and the shared mutable
`EMAIL_REGEX.lastIndex` are embedded faithfully from the source.

JS strings are modelled as `String` (lists of code points); all concrete
inputs used in theorems are ASCII, where JS UTF-16 indexing and Lean code
point indexing agree.
-/

namespace SmtpSendBack

/-! ## Small JS-semantics string helpers -/

/-- ASCII lower-casing of one character, as `String.prototype.toLowerCase`
acts on the ASCII range (all inputs in this development are ASCII). -/
def charLower (c : Char) : Char :=
  if 'A' ≤ c ∧ c ≤ 'Z' then Char.ofNat (c.toNat + 32) else c

/-- `s.toLowerCase()` (ASCII model). -/
def jsToLower (s : String) : String := String.mk (s.data.map charLower)

/-- JS whitespace test used by `String.prototype.trim` (ASCII part). -/
def jsIsWs (c : Char) : Bool :=
  c = ' ' || c = '\t' || c = '\n' || c = '\r' || c.toNat = 11 || c.toNat = 12

/-- `s.trim()`. -/
def jsTrim (s : String) : String :=
  String.mk (((s.data.dropWhile jsIsWs).reverse.dropWhile jsIsWs).reverse)

/-- `pre` a prefix of `s`, as in `s.startsWith(pre)`. -/
def jsStartsWith (s pre : String) : Bool := pre.data.isPrefixOf s.data

/-- Auxiliary substring scan: does `hay` contain `needle` as a contiguous
run, as in `hay.includes(needle)`? -/
def listContainsSub (needle : List Char) : List Char → Bool
  | [] => needle.isEmpty
  | c :: t => needle.isPrefixOf (c :: t) || listContainsSub needle t

/-- `hay.includes(needle)`. -/
def strContains (hay needle : String) : Bool := listContainsSub needle.data hay.data

/-- Boolean list membership used for the JS `Set` / `Array.includes` model. -/
def memB (x : String) : List String → Bool
  | [] => false
  | y :: l => if x = y then true else memB x l

/-- Insertion into a JS `Set` (insertion order preserved, duplicates dropped). -/
def setAdd (l : List String) (x : String) : List String :=
  if memB x l then l else l ++ [x]

/-- `xs.forEach(e => set.add(e))`. -/
def setAddAll (l : List String) (xs : List String) : List String := xs.foldl setAdd l

/-- `[...new Set(l)]`: deduplication keeping the first occurrence of each
element, in insertion order.  `seen` is the set built so far. -/
def jsSetDedupGo (seen : List String) : List String → List String
  | [] => []
  | a :: l => if memB a seen then jsSetDedupGo seen l else a :: jsSetDedupGo (a :: seen) l

def jsSetDedup (l : List String) : List String := jsSetDedupGo [] l

/-! ## EMAIL_REGEX

`const EMAIL_REGEX = /[a-zA-Z0-9._%+-]+@[a-zA-Z0-9.-]+\.[a-zA-Z]{2,}/g;`

A direct backtracking matcher for this fixed pattern.  The three character
classes: the local part (`A`), the domain part (`B`, which contains `.` and
the letters), and the TLD letters (`C`).  Greedy semantics: the local run and
the domain run are maximal; the literal `.` is placed at the largest position
inside the domain run that still leaves at least two letters after it. -/

def isAChar (c : Char) : Bool :=
  c.isAlphanum || c = '.' || c = '_' || c = '%' || c = '+' || c = '-'

def isBChar (c : Char) : Bool := c.isAlphanum || c = '.' || c = '-'

def isCChar (c : Char) : Bool := c.isAlpha

/-- Is `b.get? i` a `'.'`? -/
def isDotAt (b : List Char) (i : Nat) : Bool :=
  match b.get? i with
  | some c => c = '.'
  | none => false

/-- Is `b.get? i` a letter? -/
def isLetterAt (b : List Char) (i : Nat) : Bool :=
  match b.get? i with
  | some c => isCChar c
  | none => false

/-- Largest index `k ∈ [1, bound]` of the domain run `b` such that `b[k]` is a
`'.'` immediately followed by at least two letters — the position the greedy
`[a-zA-Z0-9.-]+` backtracks to so that `\.[a-zA-Z]{2,}` can match. -/
def findDotK (b : List Char) : Nat → Option Nat
  | 0 => none
  | k + 1 =>
    if isDotAt b (k + 1) && isLetterAt b (k + 2) && isLetterAt b (k + 3)
    then some (k + 1) else findDotK b k

/-- Attempt an `EMAIL_REGEX` match anchored at the head of `l`.  Returns the
matched characters and the remaining characters after the match. -/
def matchAt (l : List Char) : Option (List Char × List Char) :=
  let a := l.takeWhile isAChar
  let r1 := l.dropWhile isAChar
  if a.isEmpty then none
  else
    match r1 with
    | '@' :: r2 =>
      let b := r2.takeWhile isBChar
      let r3 := r2.dropWhile isBChar
      match findDotK b b.length with
      | none => none
      | some k =>
        let cs := (b.drop (k + 1)).takeWhile isCChar
        some (a ++ '@' :: (b.take (k + 1) ++ cs),
              (b.drop (k + 1)).dropWhile isCChar ++ r3)
    | _ => none

/-- Scan for the leftmost match: returns the number of characters skipped
before the match, the match, and the rest after it. -/
def scanMatch : List Char → Option (Nat × List Char × List Char)
  | [] => none
  | c :: t =>
    match matchAt (c :: t) with
    | some (m, r) => some (0, m, r)
    | none =>
      match scanMatch t with
      | some (k, m, r) => some (k + 1, m, r)
      | none => none

/-- All successive non-overlapping matches, as `text.match(EMAIL_REGEX)`
collects them.  `fuel` bounds the recursion; `length + 1` always suffices
since every match is nonempty. -/
def allMatchesGo : Nat → List Char → List (List Char)
  | 0, _ => []
  | fuel + 1, l =>
    match scanMatch l with
    | none => []
    | some (_, m, r) => m :: allMatchesGo fuel r

def emailMatches (s : String) : List String :=
  (allMatchesGo (s.data.length + 1) s.data).map String.mk

/-- `extractEmails(text)` (scraping.controller.js:28-32):
`if (!text) return []; const raw = text.match(EMAIL_REGEX) || [];`
`return [...new Set(raw.map(e => e.trim().toLowerCase()))];` -/
def extractEmails (text : String) : List String :=
  if text.data.isEmpty then []
  else jsSetDedup ((emailMatches text).map (fun e => jsToLower (jsTrim e)))

/-- `EMAIL_REGEX.test(s)` where the regex has the `g` flag: the search starts
at `lastIndex`; on success `lastIndex` becomes the end of the match, on
failure it resets to `0`.  Returns `(found, new lastIndex)`. -/
def regexTestG (lastIdx : Nat) (s : String) : Bool × Nat :=
  match scanMatch (s.data.drop lastIdx) with
  | some (k, m, _) => (true, lastIdx + k + m.length)
  | none => (false, 0)

/-- `extractEmails` as the orchestrator observes it through the shared
`EMAIL_REGEX` object: `String.prototype.match` with a global regex leaves
`lastIndex` at `0` when it runs, and the `if (!text)` early return leaves it
untouched. -/
def extractEmailsS (text : String) (lastIdx : Nat) : List String × Nat :=
  if text.data.isEmpty then ([], lastIdx) else (extractEmails text, 0)

/-! ## Email classification (scraping.controller.js:16-24, 34-58) -/

def HR_EMAIL_KEYWORDS : List String :=
  ["hr", "job", "jobs", "career", "careers", "recruit", "recruiter", "recruitment",
   "talent", "apply", "hiring", "people", "human", "resource", "resources",
   "employment", "candidature", "recrutement", "carriere", "emploi", "poste", "cv"]

def GENERIC_EXCLUDE_PREFIXES : List String :=
  ["info@", "contact@", "support@", "help@", "noreply@", "no-reply@", "newsletter@",
   "marketing@", "sales@", "webmaster@", "admin@", "postmaster@", "hello@", "office@"]

/-- `GENERIC_EXCLUDE_PREFIXES.some(p => lower.startsWith(p))`. -/
def isGenericAddr (lower : String) : Bool :=
  GENERIC_EXCLUDE_PREFIXES.any (fun p => jsStartsWith lower p)

/-- `HR_EMAIL_KEYWORDS.some(k => lower.includes(k))`. -/
def emailHasKeyword (lower : String) : Bool :=
  HR_EMAIL_KEYWORDS.any (fun k => strContains lower k)

/-- `/^[a-z]+\.[a-z]+@/i.test(lower)`: one or more letters, a dot, one or
more letters, then `@`, as a prefix.  Both letter runs are maximal (the
quantified class excludes `.` and `@`, so no backtracking applies). -/
def namePatternTest (lower : String) : Bool :=
  let l := lower.data
  let x := l.takeWhile isCChar
  match l.dropWhile isCChar with
  | '.' :: r2 =>
    let y := r2.takeWhile isCChar
    match r2.dropWhile isCChar with
    | '@' :: _ => !x.isEmpty && !y.isEmpty
    | _ => false
  | _ => false

/-- `HR_EMAIL_KEYWORDS.some(k => ctx.includes(k))`. -/
def contextHasKeyword (ctx : String) : Bool :=
  HR_EMAIL_KEYWORDS.any (fun k => strContains ctx k)

/-- The branch condition of `classifyEmails` for a non-generic address
(scraping.controller.js:47):
`hasKeyword || (contextHas && (namePattern || hrFocus)) || (namePattern && hrFocus)`. -/
def hrBranchCond (lower ctx : String) (hrFocus : Bool) : Bool :=
  emailHasKeyword lower
    || (contextHasKeyword ctx && (namePatternTest lower || hrFocus))
    || (namePatternTest lower && hrFocus)

structure Classified where
  hr : List String
  general : List String
  all : List String
  deriving DecidableEq, Repr

/-- One `emails.forEach` step of `classifyEmails`, accumulating the raw
`hr`/`general` arrays. -/
def classifyStep (ctx : String) (hrFocus : Bool)
    (acc : List String × List String) (email : String) : List String × List String :=
  let lower := jsToLower email
  if isGenericAddr lower then
    if hrFocus then acc else (acc.1, acc.2 ++ [lower])
  else
    if hrBranchCond lower ctx hrFocus then (acc.1 ++ [lower], acc.2)
    else (acc.1, acc.2 ++ [lower])

/-- `classifyEmails(emails, context, hrFocus)` (scraping.controller.js:34-58). -/
def classifyEmails (emails : List String) (context : String) (hrFocus : Bool) : Classified :=
  let ctx := jsToLower context
  let p := emails.foldl (classifyStep ctx hrFocus) ([], [])
  { hr := jsSetDedup p.1
    general := jsSetDedup p.2
    all := jsSetDedup (p.1 ++ p.2) }

/-! ## Query builder (scraping.controller.js:60-77) -/

/-- `country ? country.trim() : 'morocco'`; `none` models an absent
(undefined) argument and the empty string is falsy. -/
def geoOf (country : Option String) : String :=
  match country with
  | none => "morocco"
  | some c => if c.data.isEmpty then "morocco" else jsTrim c

/-- First core intent phrase of the builder. -/
def bingCoreQuery1 (baseQuery : String) (country : Option String) : String :=
  "\"" ++ jsTrim baseQuery ++ "\" email contact " ++ geoOf country

/-- Second core intent phrase of the builder. -/
def bingCoreQuery2 (baseQuery : String) (country : Option String) : String :=
  "\"" ++ jsTrim baseQuery ++ "\" (\"email us\" OR \"contact us\") " ++ geoOf country

/-- `buildBingQueries(baseQuery, hrFocus, country)` (scraping.controller.js:60-77). -/
def buildBingQueries (baseQuery : String) (hrFocus : Bool) (country : Option String) :
    List String :=
  let q := jsTrim baseQuery
  let geo := geoOf country
  let core := [bingCoreQuery1 baseQuery country, bingCoreQuery2 baseQuery country]
  let hrSet :=
    ["\"" ++ q ++ "\" (\"hr@\" OR \"careers@\" OR \"jobs@\" OR \"recruitment@\") " ++ geo,
     "\"" ++ q ++ "\" careers jobs apply cv email " ++ geo,
     "\"" ++ q ++ "\" (\"send your cv\" OR \"submit your cv\" OR \"postuler\") " ++ geo,
     "\"" ++ q ++ "\" recrutement emploi carriere email " ++ geo,
     "\"" ++ q ++ "\" site:linkedin.com email " ++ geo,
     "\"" ++ q ++ "\" site:indeed.com email " ++ geo]
  jsSetDedup (if hrFocus then core ++ hrSet else core)

/-- `isLikelyHRPage(url, title)` (scraping.controller.js:79-82). -/
def isLikelyHRPage (url title : String) : Bool :=
  let target := jsToLower (url ++ " " ++ title)
  HR_EMAIL_KEYWORDS.any (fun k => strContains target k)

/-! ## decodeURIComponent / Buffer base64 models -/

def hexVal (c : Char) : Option Nat :=
  if '0' ≤ c ∧ c ≤ '9' then some (c.toNat - 48)
  else if 'A' ≤ c ∧ c ≤ 'F' then some (c.toNat - 55)
  else if 'a' ≤ c ∧ c ≤ 'f' then some (c.toNat - 87)
  else none

def isUtf8Cont (b : Nat) : Bool := 0x80 ≤ b && b ≤ 0xBF

/-- Strict UTF-8 decode of one multi-byte sequence (ECMA `Decode` abstract
operation): two to four bytes, rejecting overlong forms, surrogates and
values above `0x10FFFF`. -/
def utf8DecodeSeq : List Nat → Option Nat
  | [b0, b1] =>
    if 0xC2 ≤ b0 ∧ b0 ≤ 0xDF ∧ isUtf8Cont b1
    then some ((b0 - 0xC0) * 64 + (b1 - 0x80)) else none
  | [b0, b1, b2] =>
    let ok1 :=
      if b0 = 0xE0 then 0xA0 ≤ b1 && b1 ≤ 0xBF
      else if b0 = 0xED then 0x80 ≤ b1 && b1 ≤ 0x9F
      else 0xE1 ≤ b0 && b0 ≤ 0xEF && isUtf8Cont b1
    if ok1 ∧ isUtf8Cont b2
    then some ((b0 - 0xE0) * 4096 + (b1 - 0x80) * 64 + (b2 - 0x80)) else none
  | [b0, b1, b2, b3] =>
    let ok1 :=
      if b0 = 0xF0 then 0x90 ≤ b1 && b1 ≤ 0xBF
      else if b0 = 0xF4 then 0x80 ≤ b1 && b1 ≤ 0x8F
      else 0xF1 ≤ b0 && b0 ≤ 0xF3 && isUtf8Cont b1
    if ok1 ∧ isUtf8Cont b2 ∧ isUtf8Cont b3
    then some ((b0 - 0xF0) * 0x40000 + (b1 - 0x80) * 4096 + (b2 - 0x80) * 64 + (b3 - 0x80))
    else none
  | _ => none

/-- Read `n` continuation escapes `%XY` from the input. -/
def pctContBytes : Nat → List Char → Option (List Nat × List Char)
  | 0, l => some ([], l)
  | n + 1, '%' :: h1 :: h2 :: rest =>
    match hexVal h1, hexVal h2 with
    | some a, some b =>
      match pctContBytes n rest with
      | some (bs, r) => some ((16 * a + b) :: bs, r)
      | none => none
    | _, _ => none
  | _ + 1, _ => none

/-- Expected number of continuation bytes for a UTF-8 lead byte (validity of
the lead byte itself is re-checked by `utf8DecodeSeq`). -/
def utf8ContLen (b : Nat) : Nat := if b < 0xE0 then 1 else if b < 0xF0 then 2 else 3

/-- `decodeURIComponent` model: percent-escapes decode to bytes which must
form strict UTF-8; any malformed escape or byte sequence throws (`none`).
Literal characters pass through unchanged. -/
def decURIGo : Nat → List Char → Option (List Char)
  | 0, _ => none
  | _ + 1, [] => some []
  | fuel + 1, '%' :: rest =>
    match rest with
    | h1 :: h2 :: rest2 =>
      match hexVal h1, hexVal h2 with
      | some a, some b =>
        let b0 := 16 * a + b
        if b0 < 0x80 then
          match decURIGo fuel rest2 with
          | some cs => some (Char.ofNat b0 :: cs)
          | none => none
        else
          match pctContBytes (utf8ContLen b0) rest2 with
          | some (bs, rest3) =>
            match utf8DecodeSeq (b0 :: bs) with
            | some cp =>
              match decURIGo fuel rest3 with
              | some cs => some (Char.ofNat cp :: cs)
              | none => none
            | none => none
          | none => none
      | _, _ => none
    | _ => none
  | fuel + 1, c :: rest =>
    match decURIGo fuel rest with
    | some cs => some (c :: cs)
    | none => none

def decodeURIComponentJs (s : String) : Option String :=
  match decURIGo (s.data.length + 1) s.data with
  | some cs => some (String.mk cs)
  | none => none

/-- Base64 alphabet value of a character. -/
def b64Val (c : Char) : Option Nat :=
  if 'A' ≤ c ∧ c ≤ 'Z' then some (c.toNat - 65)
  else if 'a' ≤ c ∧ c ≤ 'z' then some (c.toNat - 71)
  else if '0' ≤ c ∧ c ≤ '9' then some (c.toNat + 4)
  else if c = '+' then some 62
  else if c = '/' then some 63
  else none

/-- Quad-wise base64 decoding to bytes, with the 2- and 3-character remainder
handling of Node's forgiving decoder (invalid characters and padding are
skipped by the caller's `filterMap b64Val`). -/
def b64Quads : List Nat → List Nat
  | a :: b :: c :: d :: rest =>
    (a * 4 + b / 16) :: ((b % 16) * 16 + c / 4) :: ((c % 4) * 64 + d) :: b64Quads rest
  | [a, b] => [a * 4 + b / 16]
  | [a, b, c] => [a * 4 + b / 16, (b % 16) * 16 + c / 4]
  | _ => []

/-- Lossy UTF-8 decoding as `buf.toString('utf-8')`: invalid bytes decode to
U+FFFD.  `fuel` bounds the recursion (`length + 1` suffices). -/
def utf8LossyGo : Nat → List Nat → List Char
  | 0, _ => []
  | _ + 1, [] => []
  | fuel + 1, b0 :: rest =>
    if b0 < 0x80 then Char.ofNat b0 :: utf8LossyGo fuel rest
    else
      let n := utf8ContLen b0
      let lead := rest.take n
      if lead.length = n ∧ lead.all isUtf8Cont then
        match utf8DecodeSeq (b0 :: lead) with
        | some cp => Char.ofNat cp :: utf8LossyGo fuel (rest.drop n)
        | none => Char.ofNat 0xFFFD :: utf8LossyGo fuel rest
      else Char.ofNat 0xFFFD :: utf8LossyGo fuel rest

/-- `Buffer.from(s, 'base64').toString('utf-8')` model (Node's forgiving
base64 decoder never throws). -/
def base64ToUtf8 (s : String) : String :=
  let bytes := b64Quads (s.data.filterMap b64Val)
  String.mk (utf8LossyGo (bytes.length + 1) bytes)

/-! ## Redirect resolver (scraping.controller.js:108-125) -/

/-- `url.match(/u=([^&]+)/)`: the capture group of the first position where
`u=` is followed by at least one non-`&` character; the group is the maximal
run of non-`&` characters after the `=`. -/
def matchUParam : List Char → Option (List Char)
  | [] => none
  | c0 :: t =>
    match c0, t with
    | 'u', '=' :: c :: rest =>
      if c = '&' then matchUParam t
      else some (c :: rest.takeWhile (fun x => x ≠ '&'))
    | _, _ => matchUParam t

/-- `resolveBingRedirect(url)` (scraping.controller.js:108-125).  The
surrounding try/catch makes every failure path return the original `url`. -/
def resolveBingRedirect (url : String) : String :=
  if !strContains url "bing.com/ck/a?" then url
  else
    match matchUParam url.data with
    | none => url
    | some captured =>
      match decodeURIComponentJs (String.mk captured) with
      | none => url
      | some dec =>
        let decoded :=
          if jsStartsWith dec "a1" && !jsStartsWith dec "http"
          then base64ToUtf8 (String.mk (dec.data.drop 2))
          else dec
        if jsStartsWith decoded "http" then decoded else url

/-! ## SERP helpers (scraping.controller.js:127-134, 227-264) -/

/-- `isBlockedVariant(html)` (scraping.controller.js:127-134).  Note that the
second shell regex, the literal text `- Search</title>`, is tested against
the lower-cased markup, so its capital `S` can never match. -/
def isBlockedVariant (html : String) : Bool :=
  let low := jsToLower html
  let noAlgo := !strContains low "b_algo"
  let maybeShell := strContains low "<!doctype html" && strContains low "- Search</title>"
  noAlgo && maybeShell

/-- `low.includes('captcha') && html.includes('b_captcha')`
(scraping.controller.js:228). -/
def captchaSuspect (html : String) : Bool :=
  strContains (jsToLower html) "captcha" && strContains html "b_captcha"

/-- `/^https?:\/\//.test(href)`. -/
def isHttpAbs (href : String) : Bool :=
  jsStartsWith href "http://" || jsStartsWith href "https://"

/-- One selector pass: each matched anchor's href is added to the link set
when it is an absolute http(s) URL (scraping.controller.js:255-260). -/
def serpAddSelector (acc : List String) (hrefs : List String) : List String :=
  hrefs.foldl (fun a href => if isHttpAbs href then setAdd a href else a) acc

/-- The selector cascade with its cap check between selectors:
`if (linkSet.size >= maxUrlsPerQuery * 2) break;` (scraping.controller.js:253-263). -/
def extractSerpLinksGo (cap : Nat) (acc : List String) : List (List String) → List String
  | [] => acc
  | sel :: rest =>
    let acc2 := serpAddSelector acc sel
    if cap ≤ acc2.length then acc2 else extractSerpLinksGo cap acc2 rest

/-- Link extraction over the five selectors' matched hrefs, in cascade
order; `m` is `maxUrlsPerQuery`. -/
def extractSerpLinks (selectorHrefs : List (List String)) (m : Nat) : List String :=
  extractSerpLinksGo (m * 2) [] selectorHrefs

/-! ## encodeURIComponent model (used only to build recorded search URLs) -/

/-- Characters `encodeURIComponent` leaves unescaped. -/
def isUriUnreserved (c : Char) : Bool :=
  c.isAlphanum || c = '-' || c = '_' || c = '.' || c = '!' || c = '~'
    || c = '*' || c = Char.ofNat 39 || c = '(' || c = ')'

def hexDigitU (n : Nat) : Char :=
  if n < 10 then Char.ofNat (48 + n) else Char.ofNat (55 + n)

/-- UTF-8 bytes of a code point. -/
def utf8Bytes (c : Char) : List Nat :=
  let n := c.toNat
  if n < 0x80 then [n]
  else if n < 0x800 then [0xC0 + n / 0x40, 0x80 + n % 0x40]
  else if n < 0x10000 then
    [0xE0 + n / 0x1000, 0x80 + (n / 0x40) % 0x40, 0x80 + n % 0x40]
  else
    [0xF0 + n / 0x40000, 0x80 + (n / 0x1000) % 0x40, 0x80 + (n / 0x40) % 0x40,
     0x80 + n % 0x40]

def encodeURIComponentJs (s : String) : String :=
  String.mk (s.data.flatMap (fun c =>
    if isUriUnreserved c then [c]
    else (utf8Bytes c).flatMap (fun b => ['%', hexDigitU (b / 16), hexDigitU (b % 16)])))

/-- The SERP request URL built at scraping.controller.js:203. -/
def bingSearchUrl (qStr : String) : String :=
  "https://www.bing.com/search?q=" ++ encodeURIComponentJs qStr
    ++ "&count=15&mkt=en-US&setlang=en-US&cc=US&ensearch=1&FORM=R5FD"

/-! ## Hunt orchestrator data model (scraping.controller.js:161-430)

The network and the cheerio HTML parser are external collaborators.  An
`Oracle` supplies their outcomes: for each query index the SERP fetch result
and, per (query index, link position), the page fetch result.  A fetched
document is represented by the data the controller reads from it. -/

/-- Outcome of one `fetchWithTimeout` call: a thrown error (its message,
"timeout" for aborts) or a response. -/
inductive Fetch (α : Type) where
  | err (msg : String)
  | ok (val : α)
  deriving DecidableEq, Repr

/-- What the controller reads off a fetched SERP: the raw markup (`html`,
used for the captcha / blocked heuristics and as classification context),
`$('body').text()`, and the hrefs of the anchors matched by each of the five
cascade selectors, in document order. -/
structure SerpData where
  html : String
  bodyText : String
  selectorHrefs : List (List String)
  deriving DecidableEq, Repr

/-- What the controller reads off a fetched result page: `pageResp.ok` and
status, the body text after `script,style,noscript` removal, the `<title>`
text (already `.trim()`ed at the source), and the hrefs of
`a[href^="mailto:"]` anchors in document order. -/
structure PageData where
  respOk : Bool
  status : Nat
  bodyText : String
  title : String
  mailtoHrefs : List String
  deriving DecidableEq, Repr

/-- What `duckDuckGoFallback` reads off the DuckDuckGo HTML SERP: hrefs of
`a.result__a` anchors and the text of the snippet containers. -/
structure DuckData where
  anchors : List String
  snippetText : String
  deriving DecidableEq, Repr

structure Oracle where
  serp : Nat → Fetch SerpData
  page : Nat → Nat → Fetch PageData
  fallbackSerp : Fetch DuckData

/-- The argument object of `runBingEmailHunt`.  `country = none` models an
absent argument; `globalUrlBudget = none` models `undefined` (the budget
check is skipped).  `collectDebug` only shapes the debug payload and is not
modelled; the instrumentation trace below records the same information. -/
structure HuntReq where
  query : String
  hrFocus : Bool
  country : Option String
  maxQueries : Nat
  maxUrlsPerQuery : Nat
  globalUrlBudget : Option Nat
  deriving Repr

structure EmailCount where
  hr : Nat
  general : Nat
  total : Nat
  deriving DecidableEq, Repr

structure ScrapedUrl where
  url : String
  searchPage : Nat
  isHRPage : Bool
  emailCount : EmailCount
  deriving DecidableEq, Repr

/-- A `failedUrls` record; `kind` is the JS field named `type`
(`"search"` or `"page"`). -/
structure FailedUrl where
  url : String
  error : String
  searchPage : Nat
  kind : String
  deriving DecidableEq, Repr

structure HuntStats where
  snippetHr : Nat
  snippetGeneral : Nat
  pageHr : Nat
  pageGeneral : Nat
  deriving DecidableEq, Repr

structure HuntResult where
  captchaTriggered : Bool
  hrEmails : List String
  generalEmails : List String
  scrapedUrls : List ScrapedUrl
  failedUrls : List FailedUrl
  allSearchUrls : List String
  stats : HuntStats
  deriving DecidableEq, Repr

/-- The orchestrator's mutable locals.  The four accumulator `Set`s are
insertion-ordered duplicate-free lists.  `regexLastIndex` is the shared
`EMAIL_REGEX.lastIndex` (the module-level regex object is stateful). -/
structure HuntState where
  snippetHR : List String
  snippetGeneral : List String
  pageHR : List String
  pageGeneral : List String
  scrapedUrls : List ScrapedUrl
  failedUrls : List FailedUrl
  allSearchUrls : List String
  totalVisited : Nat
  captchaTriggered : Bool
  bingBlockedEveryQuery : Bool
  fallbackUsed : Bool
  regexLastIndex : Nat
  deriving DecidableEq, Repr

def initState : HuntState :=
  { snippetHR := [], snippetGeneral := [], pageHR := [], pageGeneral := []
    scrapedUrls := [], failedUrls := [], allSearchUrls := []
    totalVisited := 0, captchaTriggered := false
    bingBlockedEveryQuery := true, fallbackUsed := false, regexLastIndex := 0 }

/-- Instrumentation: the external calls the run performs, in order.  `serp i`
is the SERP fetch for query index `i`; `page i p` is the visit of the `p`-th
sliced link of query `i`; `fallback` is the secondary-engine invocation. -/
inductive Ev where
  | serp (qi : Nat)
  | page (qi : Nat) (pi : Nat)
  | fallback
  deriving DecidableEq, Repr

/-- `globalUrlBudget !== undefined && totalVisited >= globalUrlBudget`. -/
def budgetReached : Option Nat → Nat → Bool
  | none, _ => false
  | some b, tv => b ≤ tv

/-- `m.replace(/^mailto:/i, '')`. -/
def stripMailtoScheme (m : String) : String :=
  if (m.data.take 7).map charLower = "mailto:".data
  then String.mk (m.data.drop 7) else m

/-- `s.split('?')[0]`. -/
def beforeQuerySep (s : String) : String :=
  String.mk (s.data.takeWhile (fun c => c ≠ '?'))

/-- One iteration of the mailto-anchor loop (scraping.controller.js:321-333).
The accumulator carries the state plus the running `hrAdded`, `generalAdded`
and `totalEmailsOnPage` counters.  `EMAIL_REGEX.test` is stateful: it reads
and writes `regexLastIndex`, and is only invoked when `mail` is truthy. -/
def mailtoStep (hrFocus : Bool) (title : String)
    (acc : HuntState × Nat × Nat × Nat) (m : String) : HuntState × Nat × Nat × Nat :=
  if m.data.isEmpty then acc
  else
    let st := acc.1
    let mail := jsToLower (jsTrim (beforeQuerySep (stripMailtoScheme m)))
    if mail.data.isEmpty then acc
    else
      let t := regexTestG st.regexLastIndex mail
      let st := { st with regexLastIndex := t.2 }
      if t.1 then
        let c2 := classifyEmails [mail] title hrFocus
        let st := { st with pageHR := setAddAll st.pageHR c2.hr
                            pageGeneral := setAddAll st.pageGeneral c2.general }
        (st, acc.2.1 + c2.hr.length, acc.2.2.1 + c2.general.length,
         acc.2.2.2 + c2.hr.length + c2.general.length)
      else (st, acc.2.1, acc.2.2.1, acc.2.2.2)

/-- One page visit (scraping.controller.js:290-367, loop body): resolve the
redirect, record the URL, increment `totalVisited`, then either record a
failure (fetch error or non-ok status) or extract, classify and merge. -/
def processPage (hrFocus : Bool) (qi : Nat) (rawLink : String)
    (fetchRes : Fetch PageData) (st : HuntState) : HuntState :=
  let finalUrl := resolveBingRedirect rawLink
  let st := { st with allSearchUrls := st.allSearchUrls ++ [finalUrl]
                      totalVisited := st.totalVisited + 1 }
  match fetchRes with
  | .err msg =>
    { st with failedUrls := st.failedUrls ++ [⟨finalUrl, msg, qi + 1, "page"⟩] }
  | .ok pd =>
    if !pd.respOk then
      { st with failedUrls :=
          st.failedUrls ++ [⟨finalUrl, "HTTP " ++ toString pd.status, qi + 1, "page"⟩] }
    else
      let ex := extractEmailsS pd.bodyText st.regexLastIndex
      let pageEmails := ex.1
      let st := { st with regexLastIndex := ex.2 }
      let withBody :=
        if pageEmails.isEmpty then (st, 0, 0, pageEmails.length)
        else
          let classified := classifyEmails pageEmails (pd.bodyText ++ " " ++ pd.title) hrFocus
          ({ st with pageHR := setAddAll st.pageHR classified.hr
                     pageGeneral := setAddAll st.pageGeneral classified.general },
           classified.hr.length, classified.general.length, pageEmails.length)
      let afterMailto := pd.mailtoHrefs.foldl (mailtoStep hrFocus pd.title) withBody
      let st := afterMailto.1
      { st with scrapedUrls := st.scrapedUrls ++
          [⟨finalUrl, qi + 1, isLikelyHRPage finalUrl pd.title,
            ⟨afterMailto.2.1, afterMailto.2.2.1, afterMailto.2.1 + afterMailto.2.2.1⟩⟩] }

/-- The per-query page loop over `links.slice(0, maxUrlsPerQuery)`, with the
global-budget check before each visit (scraping.controller.js:290-291). -/
def pageLoop (hrFocus : Bool) (budget : Option Nat) (pageOf : Nat → Fetch PageData)
    (qi : Nat) : Nat → List String → HuntState → HuntState × List Ev
  | _, [], st => (st, [])
  | pi, link :: rest, st =>
    if budgetReached budget st.totalVisited then (st, [])
    else
      let st1 := processPage hrFocus qi link (pageOf pi) st
      let r := pageLoop hrFocus budget pageOf qi (pi + 1) rest st1
      (r.1, Ev.page qi pi :: r.2)

/-- Processing of one successfully fetched SERP (scraping.controller.js:
227-267, 290-367): captcha flag, snippet extraction and classification,
link-cascade extraction, blocked-flag update, page loop.  The third
component reports whether the captcha short-circuit fires afterwards. -/
def processSerpOk (req : HuntReq) (o : Oracle) (qi : Nat) (d : SerpData)
    (st : HuntState) : HuntState × List Ev × Bool :=
  let captcha := captchaSuspect d.html
  let st := if captcha then { st with captchaTriggered := true } else st
  let ex := extractEmailsS d.bodyText st.regexLastIndex
  let st := { st with regexLastIndex := ex.2 }
  let st :=
    if ex.1.isEmpty then st
    else
      let classified := classifyEmails ex.1 d.html req.hrFocus
      { st with snippetHR := setAddAll st.snippetHR classified.hr
                snippetGeneral := setAddAll st.snippetGeneral classified.general }
  let links := extractSerpLinks d.selectorHrefs req.maxUrlsPerQuery
  let st := if links.isEmpty then st else { st with bingBlockedEveryQuery := false }
  let r := pageLoop req.hrFocus req.globalUrlBudget (o.page qi) qi 0
    (links.take req.maxUrlsPerQuery) st
  (r.1, r.2, captcha)

/-- The state update for a failed SERP fetch (scraping.controller.js:209-216). -/
def serpFailState (qStr msg : String) (qi : Nat) (st : HuntState) : HuntState :=
  { st with failedUrls := st.failedUrls ++
      [⟨bingSearchUrl qStr, "Search fetch failed: " ++ msg, qi + 1, "search"⟩] }

/-- The main query loop (scraping.controller.js:196-374): global-budget check
before each query, SERP fetch (failure recorded, loop continues), SERP
processing, and the `if (captcha) break;` short-circuit. -/
def queryLoop (o : Oracle) (req : HuntReq) :
    List String → Nat → HuntState → HuntState × List Ev
  | [], _, st => (st, [])
  | qStr :: rest, qi, st =>
    if budgetReached req.globalUrlBudget st.totalVisited then (st, [])
    else
      match o.serp qi with
      | .err msg =>
        let r := queryLoop o req rest (qi + 1) (serpFailState qStr msg qi st)
        (r.1, Ev.serp qi :: r.2)
      | .ok d =>
        let t := processSerpOk req o qi d st
        if t.2.2 then (t.1, Ev.serp qi :: t.2.1)
        else
          let r := queryLoop o req rest (qi + 1) t.1
          (r.1, Ev.serp qi :: (t.2.1 ++ r.2))

/-- The secondary-engine phase (scraping.controller.js:376-398), guarded by
`if (bingBlockedEveryQuery)`.  `duckDuckGoFallback` fetches one DuckDuckGo
SERP and classifies its snippet emails; a failure is swallowed.  The result
links are computed only for the debug payload and merge nothing. -/
def fallbackPhase (o : Oracle) (req : HuntReq) (st : HuntState) : HuntState × List Ev :=
  if st.bingBlockedEveryQuery then
    match o.fallbackSerp with
    | .err _ => (st, [Ev.fallback])
    | .ok d =>
      let ex := extractEmailsS d.snippetText st.regexLastIndex
      let classified := classifyEmails ex.1 d.snippetText req.hrFocus
      ({ st with regexLastIndex := ex.2
                 fallbackUsed := true
                 snippetHR := setAddAll st.snippetHR classified.hr
                 snippetGeneral := setAddAll st.snippetGeneral classified.general },
       [Ev.fallback])
  else (st, [])

/-- Final aggregation (scraping.controller.js:400-429). -/
def finalizeResult (st : HuntState) : HuntResult :=
  let hrEmails := jsSetDedup (st.snippetHR ++ st.pageHR)
  let generalEmails :=
    jsSetDedup ((st.snippetGeneral ++ st.pageGeneral).filter (fun e => !memB e hrEmails))
  { captchaTriggered := st.captchaTriggered
    hrEmails := hrEmails
    generalEmails := generalEmails
    scrapedUrls := st.scrapedUrls
    failedUrls := st.failedUrls
    allSearchUrls := st.allSearchUrls
    stats := ⟨st.snippetHR.length, st.snippetGeneral.length,
              st.pageHR.length, st.pageGeneral.length⟩ }

/-- `buildBingQueries(query, hrFocus, country).slice(0, maxQueries)`
(scraping.controller.js:170). -/
def huntQueries (req : HuntReq) : List String :=
  (buildBingQueries req.query req.hrFocus req.country).take req.maxQueries

structure HuntRun where
  result : HuntResult
  finalState : HuntState
  trace : List Ev

/-- `runBingEmailHunt` (scraping.controller.js:161-430) against an oracle:
query loop, fallback phase, final aggregation.  `finalState` and `trace` are
instrumentation (the JS function returns only `result` plus the optional
debug payload, which records the same events). -/
def runBingEmailHunt (req : HuntReq) (o : Oracle) : HuntRun :=
  let r1 := queryLoop o req (huntQueries req) 0 initState
  let r2 := fallbackPhase o req r1.1
  { result := finalizeResult r2.1, finalState := r2.1, trace := r1.2 ++ r2.2 }

/-! ## Derived predicates used in theorem statements -/

/-- The filter form of the HR side of `classifyEmails`: a lower-cased address
lands in `hr` iff it is not generic-excluded and the branch condition holds. -/
def classifyHrPred (ctx : String) (hrFocus : Bool) (lower : String) : Bool :=
  !isGenericAddr lower && hrBranchCond lower ctx hrFocus

/-- The filter form of the general side of `classifyEmails`. -/
def classifyGenPred (ctx : String) (hrFocus : Bool) (lower : String) : Bool :=
  (isGenericAddr lower && !hrFocus)
    || (!isGenericAddr lower && !hrBranchCond lower ctx hrFocus)

/-- The orchestrator fields a page visit can never change, bundled for frame
lemmas: `snippetHR`, `snippetGeneral`, `captchaTriggered`,
`bingBlockedEveryQuery`, `fallbackUsed`. -/
def frameOf (st : HuntState) : List String × List String × Bool × Bool × Bool :=
  (st.snippetHR, st.snippetGeneral, st.captchaTriggered,
   st.bingBlockedEveryQuery, st.fallbackUsed)

/-- Invariant for the four accumulator sets of a `hrFocus = true` run: no
stored address starts with a generic role prefix. -/
def NoGenericSets (st : HuntState) : Prop :=
  ∀ e, (e ∈ st.snippetHR ∨ e ∈ st.snippetGeneral ∨ e ∈ st.pageHR ∨ e ∈ st.pageGeneral) →
    isGenericAddr e = false

/-- Modelled from the spec (§4.6), for comparison with `classifyEmails`: the
spec's HR condition is keyword-containment, OR the `firstname.lastname@`
shape together with (HR-focus OR context keyword).  It lacks the code's
`contextHas && hrFocus` disjunct for shapeless addresses. -/
def specHrCond (lower ctx : String) (hrFocus : Bool) : Bool :=
  emailHasKeyword lower
    || (namePatternTest lower && (hrFocus || contextHasKeyword ctx))

/-- Modelled from the spec (§4.6): `classifyEmails` with the spec's HR
condition in place of the code's, all else identical. -/
def specClassifyStep (ctx : String) (hrFocus : Bool)
    (acc : List String × List String) (email : String) : List String × List String :=
  let lower := jsToLower email
  if isGenericAddr lower then
    if hrFocus then acc else (acc.1, acc.2 ++ [lower])
  else
    if specHrCond lower ctx hrFocus then (acc.1 ++ [lower], acc.2)
    else (acc.1, acc.2 ++ [lower])

def specClassifyEmails (emails : List String) (context : String) (hrFocus : Bool) :
    Classified :=
  let ctx := jsToLower context
  let p := emails.foldl (specClassifyStep ctx hrFocus) ([], [])
  { hr := jsSetDedup p.1
    general := jsSetDedup p.2
    all := jsSetDedup (p.1 ++ p.2) }

/-! ## Concrete runs used by counterexamples and witnesses -/

/-- An oracle whose first SERP is captcha-suspect but still carries one
result link; the link's page fetch succeeds with empty content. -/
def captchaLinkReq : HuntReq := ⟨"acme", false, none, 2, 5, some 5⟩

def captchaLinkOracle : Oracle :=
  { serp := fun qi =>
      if qi = 0 then
        .ok ⟨"captcha page b_captcha", "", [["http://a.example/"], [], [], [], []]⟩
      else .err "net"
    page := fun _ _ => .ok ⟨true, 200, "", "", []⟩
    fallbackSerp := .err "nf" }

/-- An oracle whose first SERP is captcha-suspect with zero links; the
fallback SERP carries one snippet email. -/
def captchaNoLinkReq : HuntReq := ⟨"acme", false, none, 2, 5, some 5⟩

def captchaNoLinkOracle : Oracle :=
  { serp := fun qi =>
      if qi = 0 then .ok ⟨"captcha page b_captcha", "", [[], [], [], [], []]⟩
      else .err "net"
    page := fun _ _ => .err "x"
    fallbackSerp := .ok ⟨[], "reach us: fb@dd.example now"⟩ }

/-- An oracle whose single visited page carries the same valid address in two
consecutive mailto anchors. -/
def mailtoDupReq : HuntReq := ⟨"acme", true, none, 1, 5, none⟩

def mailtoDupOracle : Oracle :=
  { serp := fun _ => .ok ⟨"resultpage", "x", [["http://a.example/"], [], [], [], []]⟩
    page := fun _ _ =>
      .ok ⟨true, 200, "x", "", ["mailto:jane@example.com", "mailto:jane@example.com"]⟩
    fallbackSerp := .err "nf" }

/-- A `hrFocus = true` run whose SERP snippet carries one HR address and one
generic-excluded address. -/
def hrRunReq : HuntReq := ⟨"acme", true, none, 1, 5, some 5⟩

def hrRunOracle : Oracle :=
  { serp := fun _ =>
      .ok ⟨"page", "write hr@acme.example or info@acme.example", [[], [], [], [], []]⟩
    page := fun _ _ => .err "x"
    fallbackSerp := .err "nf" }

/-- A run over two queries, each SERP exposing three links, against a global
budget of 2: only two pages may be visited. -/
def budgetReq : HuntReq := ⟨"acme", false, none, 2, 3, some 2⟩

def budgetOracle : Oracle :=
  { serp := fun _ =>
      .ok ⟨"page", "",
        [["http://a.example/", "http://b.example/", "http://c.example/"], [], [], [], []]⟩
    page := fun _ _ => .ok ⟨true, 200, "", "", []⟩
    fallbackSerp := .err "nf" }

/-- A SERP whose first selector already exceeds the link cap and includes a
link on the engine's own domain. -/
def serpCapSelectors : List (List String) :=
  [["https://www.bing.com/a", "http://x.example/", "http://y.example/"], [], [], [], []]

/-- The request of the builder scenario: base term `Acme Corp`,
`hrFocus = true`, country `morocco`, `maxQueries = 2`. -/
def acmeReq : HuntReq := ⟨"Acme Corp", true, some "morocco", 2, 5, some 20⟩

/-! ## Lemmas: set and deduplication helpers -/

theorem memB_iff (x : String) (l : List String) : memB x l = true ↔ x ∈ l := by
  induction l with
  | nil => simp [memB]
  | cons y t ih =>
    by_cases h : x = y <;> simp [memB, h, ih]

theorem mem_setAdd {l : List String} {x e : String} (h : e ∈ setAdd l x) :
    e ∈ l ∨ e = x := by
  unfold setAdd at h
  split at h
  · exact Or.inl h
  · rcases List.mem_append.1 h with h | h
    · exact Or.inl h
    · simp at h; exact Or.inr h

theorem mem_setAddAll {l xs : List String} {e : String} (h : e ∈ setAddAll l xs) :
    e ∈ l ∨ e ∈ xs := by
  induction xs generalizing l with
  | nil => exact Or.inl h
  | cons x t ih =>
    rcases ih h with h' | h'
    · rcases mem_setAdd h' with h'' | h''
      · exact Or.inl h''
      · exact Or.inr (by simp [h''])
    · exact Or.inr (by simp [h'])

theorem nodup_setAdd {l : List String} (h : l.Nodup) (x : String) :
    (setAdd l x).Nodup := by
  unfold setAdd
  split
  · exact h
  · next hmem =>
    refine List.nodup_append.2 ⟨h, List.nodup_singleton x, ?_⟩
    intro a ha hb
    simp at hb
    subst hb
    exact hmem ((memB_iff _ _).2 ha)

theorem mem_jsSetDedupGo {seen l : List String} {x : String} :
    x ∈ jsSetDedupGo seen l ↔ x ∈ l ∧ x ∉ seen := by
  induction l generalizing seen with
  | nil => simp [jsSetDedupGo]
  | cons a t ih =>
    by_cases h : memB a seen
    · rw [show jsSetDedupGo seen (a :: t) = jsSetDedupGo seen t by simp [jsSetDedupGo, h]]
      rw [ih]
      constructor
      · rintro ⟨hx, hn⟩; exact ⟨List.mem_cons.2 (Or.inr hx), hn⟩
      · rintro ⟨hx, hn⟩
        rcases List.mem_cons.1 hx with rfl | hx
        · exact absurd ((memB_iff _ _).1 h) hn
        · exact ⟨hx, hn⟩
    · rw [show jsSetDedupGo seen (a :: t) = a :: jsSetDedupGo (a :: seen) t by
        simp [jsSetDedupGo, h]]
      constructor
      · intro hx
        rcases List.mem_cons.1 hx with rfl | hx
        · exact ⟨List.mem_cons.2 (Or.inl rfl), fun hs => h ((memB_iff _ _).2 hs)⟩
        · rw [ih] at hx
          refine ⟨List.mem_cons.2 (Or.inr hx.1), fun hs => hx.2 (by simp [hs])⟩
      · rintro ⟨hx, hn⟩
        rcases List.mem_cons.1 hx with rfl | hx
        · exact List.mem_cons.2 (Or.inl rfl)
        · by_cases hxa : x = a
          · exact List.mem_cons.2 (Or.inl hxa)
          · exact List.mem_cons.2 (Or.inr (ih.2 ⟨hx, by simp [hxa, hn]⟩))

theorem mem_jsSetDedup {l : List String} {x : String} :
    x ∈ jsSetDedup l ↔ x ∈ l := by
  simp [jsSetDedup, mem_jsSetDedupGo]

theorem nodup_jsSetDedupGo (seen l : List String) : (jsSetDedupGo seen l).Nodup := by
  induction l generalizing seen with
  | nil => simp [jsSetDedupGo]
  | cons a t ih =>
    unfold jsSetDedupGo
    split
    · exact ih seen
    · refine List.nodup_cons.2 ⟨fun hmem => ?_, ih (a :: seen)⟩
      exact (mem_jsSetDedupGo.1 hmem).2 (by simp)

theorem nodup_jsSetDedup (l : List String) : (jsSetDedup l).Nodup :=
  nodup_jsSetDedupGo [] l

theorem jsSetDedup_take_two {a b : String} (l : List String) (h : a ≠ b) :
    (jsSetDedup (a :: b :: l)).take 2 = [a, b] := by
  have hba : (b = a) = False := by
    simp [Ne.symm h]
  simp [jsSetDedup, jsSetDedupGo, memB, hba]

/-! ## Lemmas: the classifier as a filter -/

theorem classifyFold_eq (ctx : String) (f : Bool) (es : List String)
    (acc : List String × List String) :
    es.foldl (classifyStep ctx f) acc =
      (acc.1 ++ (es.map jsToLower).filter (classifyHrPred ctx f),
       acc.2 ++ (es.map jsToLower).filter (classifyGenPred ctx f)) := by
  induction es generalizing acc with
  | nil => simp
  | cons e t ih =>
    rw [List.foldl_cons, ih]
    by_cases hg : isGenericAddr (jsToLower e)
    · by_cases hf : f
      · simp [classifyStep, classifyHrPred, classifyGenPred, hg, hf]
      · simp only [Bool.not_eq_true] at hf
        simp [classifyStep, classifyHrPred, classifyGenPred, hg, hf]
    · simp only [Bool.not_eq_true] at hg
      by_cases hc : hrBranchCond (jsToLower e) ctx f
      · simp [classifyStep, classifyHrPred, classifyGenPred, hg, hc]
      · simp only [Bool.not_eq_true] at hc
        simp [classifyStep, classifyHrPred, classifyGenPred, hg, hc]

theorem classify_hr_eq (es : List String) (ctx : String) (f : Bool) :
    (classifyEmails es ctx f).hr =
      jsSetDedup ((es.map jsToLower).filter (classifyHrPred (jsToLower ctx) f)) := by
  simp [classifyEmails, classifyFold_eq]

theorem classify_general_eq (es : List String) (ctx : String) (f : Bool) :
    (classifyEmails es ctx f).general =
      jsSetDedup ((es.map jsToLower).filter (classifyGenPred (jsToLower ctx) f)) := by
  simp [classifyEmails, classifyFold_eq]

theorem mem_classify_hr {es : List String} {ctx : String} {f : Bool} {e : String} :
    e ∈ (classifyEmails es ctx f).hr ↔
      (∃ em ∈ es, e = jsToLower em) ∧ classifyHrPred (jsToLower ctx) f e = true := by
  rw [classify_hr_eq, mem_jsSetDedup, List.mem_filter, List.mem_map]
  constructor
  · rintro ⟨⟨em, hm, rfl⟩, hp⟩
    exact ⟨⟨em, hm, rfl⟩, hp⟩
  · rintro ⟨⟨em, hm, rfl⟩, hp⟩
    exact ⟨⟨em, hm, rfl⟩, hp⟩

theorem mem_classify_general {es : List String} {ctx : String} {f : Bool} {e : String} :
    e ∈ (classifyEmails es ctx f).general ↔
      (∃ em ∈ es, e = jsToLower em) ∧ classifyGenPred (jsToLower ctx) f e = true := by
  rw [classify_general_eq, mem_jsSetDedup, List.mem_filter, List.mem_map]
  constructor
  · rintro ⟨⟨em, hm, rfl⟩, hp⟩
    exact ⟨⟨em, hm, rfl⟩, hp⟩
  · rintro ⟨⟨em, hm, rfl⟩, hp⟩
    exact ⟨⟨em, hm, rfl⟩, hp⟩

theorem classify_hr_nonGeneric {es : List String} {ctx : String} {f : Bool} {e : String}
    (h : e ∈ (classifyEmails es ctx f).hr) : isGenericAddr e = false := by
  have hp := (mem_classify_hr.1 h).2
  unfold classifyHrPred at hp
  simp only [Bool.and_eq_true, Bool.not_eq_true'] at hp
  exact hp.1

theorem classify_general_nonGeneric {es : List String} {ctx : String} {e : String}
    (h : e ∈ (classifyEmails es ctx true).general) : isGenericAddr e = false := by
  have hp := (mem_classify_general.1 h).2
  unfold classifyGenPred at hp
  simp only [Bool.not_true, Bool.and_false, Bool.false_or, Bool.and_eq_true,
    Bool.not_eq_true'] at hp
  exact hp.1

/-! ## Lemmas: frame properties of the orchestrator steps -/

theorem frame_fields {a b : HuntState} (h : frameOf a = frameOf b) :
    a.snippetHR = b.snippetHR ∧ a.snippetGeneral = b.snippetGeneral ∧
      a.captchaTriggered = b.captchaTriggered ∧
      a.bingBlockedEveryQuery = b.bingBlockedEveryQuery ∧
      a.fallbackUsed = b.fallbackUsed := by
  unfold frameOf at h
  simpa using h

theorem mailtoStep_frame (f : Bool) (title : String) (acc : HuntState × Nat × Nat × Nat)
    (m : String) :
    frameOf (mailtoStep f title acc m).1 = frameOf acc.1 ∧
      (mailtoStep f title acc m).1.totalVisited = acc.1.totalVisited := by
  simp only [mailtoStep]
  split_ifs <;> simp [frameOf]

theorem mailtoFold_frame (f : Bool) (title : String) (ms : List String) :
    ∀ acc : HuntState × Nat × Nat × Nat,
      frameOf (ms.foldl (mailtoStep f title) acc).1 = frameOf acc.1 ∧
        (ms.foldl (mailtoStep f title) acc).1.totalVisited = acc.1.totalVisited := by
  induction ms with
  | nil => intro acc; simp
  | cons m t ih =>
    intro acc
    have hs := mailtoStep_frame f title acc m
    have ht := ih (mailtoStep f title acc m)
    rw [List.foldl_cons]
    exact ⟨ht.1.trans hs.1, ht.2.trans hs.2⟩

theorem mailtoFold_snippetHR (f : Bool) (title : String) (ms : List String)
    (acc : HuntState × Nat × Nat × Nat) :
    (ms.foldl (mailtoStep f title) acc).1.snippetHR = acc.1.snippetHR :=
  (frame_fields (mailtoFold_frame f title ms acc).1).1

theorem mailtoFold_snippetGeneral (f : Bool) (title : String) (ms : List String)
    (acc : HuntState × Nat × Nat × Nat) :
    (ms.foldl (mailtoStep f title) acc).1.snippetGeneral = acc.1.snippetGeneral :=
  (frame_fields (mailtoFold_frame f title ms acc).1).2.1

theorem mailtoFold_captcha (f : Bool) (title : String) (ms : List String)
    (acc : HuntState × Nat × Nat × Nat) :
    (ms.foldl (mailtoStep f title) acc).1.captchaTriggered = acc.1.captchaTriggered :=
  (frame_fields (mailtoFold_frame f title ms acc).1).2.2.1

theorem mailtoFold_blocked (f : Bool) (title : String) (ms : List String)
    (acc : HuntState × Nat × Nat × Nat) :
    (ms.foldl (mailtoStep f title) acc).1.bingBlockedEveryQuery =
      acc.1.bingBlockedEveryQuery :=
  (frame_fields (mailtoFold_frame f title ms acc).1).2.2.2.1

theorem mailtoFold_fbUsed (f : Bool) (title : String) (ms : List String)
    (acc : HuntState × Nat × Nat × Nat) :
    (ms.foldl (mailtoStep f title) acc).1.fallbackUsed = acc.1.fallbackUsed :=
  (frame_fields (mailtoFold_frame f title ms acc).1).2.2.2.2

theorem mailtoFold_totalVisited (f : Bool) (title : String) (ms : List String)
    (acc : HuntState × Nat × Nat × Nat) :
    (ms.foldl (mailtoStep f title) acc).1.totalVisited = acc.1.totalVisited :=
  (mailtoFold_frame f title ms acc).2

theorem processPage_frame (f : Bool) (qi : Nat) (link : String) (fr : Fetch PageData)
    (st : HuntState) :
    frameOf (processPage f qi link fr st) = frameOf st ∧
      (processPage f qi link fr st).totalVisited = st.totalVisited + 1 := by
  cases fr with
  | err msg => simp [processPage, frameOf]
  | ok pd =>
    simp only [processPage]
    split_ifs <;>
      simp [frameOf, mailtoFold_snippetHR, mailtoFold_snippetGeneral, mailtoFold_captcha,
        mailtoFold_blocked, mailtoFold_fbUsed, mailtoFold_totalVisited]

theorem pageLoop_frame (f : Bool) (bud : Option Nat) (po : Nat → Fetch PageData)
    (qi : Nat) :
    ∀ (links : List String) (pi : Nat) (st : HuntState),
      frameOf (pageLoop f bud po qi pi links st).1 = frameOf st := by
  intro links
  induction links with
  | nil => intro pi st; simp [pageLoop]
  | cons l t ih =>
    intro pi st
    unfold pageLoop
    split
    · rfl
    · exact (ih (pi + 1) _).trans (processPage_frame f qi l (po pi) st).1

theorem pageLoop_captcha (f : Bool) (bud : Option Nat) (po : Nat → Fetch PageData)
    (qi pi : Nat) (links : List String) (st : HuntState) :
    (pageLoop f bud po qi pi links st).1.captchaTriggered = st.captchaTriggered :=
  congrArg (fun p => p.2.2.1) (pageLoop_frame f bud po qi links pi st)

theorem pageLoop_blocked (f : Bool) (bud : Option Nat) (po : Nat → Fetch PageData)
    (qi pi : Nat) (links : List String) (st : HuntState) :
    (pageLoop f bud po qi pi links st).1.bingBlockedEveryQuery =
      st.bingBlockedEveryQuery :=
  congrArg (fun p => p.2.2.2.1) (pageLoop_frame f bud po qi links pi st)

theorem pageLoop_fbUsed (f : Bool) (bud : Option Nat) (po : Nat → Fetch PageData)
    (qi pi : Nat) (links : List String) (st : HuntState) :
    (pageLoop f bud po qi pi links st).1.fallbackUsed = st.fallbackUsed :=
  congrArg (fun p => p.2.2.2.2) (pageLoop_frame f bud po qi links pi st)

/-! ## Lemmas: page-visit budget -/

theorem pageLoop_budget (f : Bool) (b : Nat) (po : Nat → Fetch PageData) (qi : Nat)
    (links : List String) :
    ∀ (pi : Nat) (st : HuntState), st.totalVisited ≤ b →
      (pageLoop f (some b) po qi pi links st).1.totalVisited ≤ b := by
  induction links with
  | nil => intro pi st h; simpa [pageLoop] using h
  | cons l t ih =>
    intro pi st h
    unfold pageLoop
    split
    · simpa using h
    · next hb =>
      have hlt : st.totalVisited < b := by
        simp [budgetReached] at hb
        omega
      have h1 := (processPage_frame f qi l (po pi) st).2
      exact ih (pi + 1) _ (by rw [h1]; omega)

theorem processSerpOk_budget (req : HuntReq) (o : Oracle) (qi : Nat) (d : SerpData)
    (st : HuntState) (b : Nat) (hq : req.globalUrlBudget = some b)
    (h : st.totalVisited ≤ b) :
    (processSerpOk req o qi d st).1.totalVisited ≤ b := by
  simp only [processSerpOk, hq]
  split_ifs <;> exact pageLoop_budget _ _ _ _ _ _ _ h

theorem queryLoop_budget (o : Oracle) (req : HuntReq) (b : Nat)
    (hq : req.globalUrlBudget = some b) (qs : List String) :
    ∀ (qi : Nat) (st : HuntState), st.totalVisited ≤ b →
      (queryLoop o req qs qi st).1.totalVisited ≤ b := by
  induction qs with
  | nil => intro qi st h; simpa [queryLoop] using h
  | cons q t ih =>
    intro qi st h
    unfold queryLoop
    split
    · simpa using h
    · split
      · exact ih (qi + 1) _ h
      · next d heq =>
        simp only []
        split
        · exact processSerpOk_budget req o qi d st b hq h
        · exact ih (qi + 1) _ (processSerpOk_budget req o qi d st b hq h)

/-! ## Lemmas: event traces -/

theorem pageLoop_events (f : Bool) (bud : Option Nat) (po : Nat → Fetch PageData)
    (qi : Nat) (links : List String) :
    ∀ (pi : Nat) (st : HuntState) (e : Ev),
      e ∈ (pageLoop f bud po qi pi links st).2 → ∃ p, e = Ev.page qi p := by
  induction links with
  | nil => intro pi st e h; simp [pageLoop] at h
  | cons l t ih =>
    intro pi st e h
    unfold pageLoop at h
    split at h
    · simp at h
    · rcases List.mem_cons.1 h with rfl | h2
      · exact ⟨pi, rfl⟩
      · exact ih (pi + 1) _ e h2

theorem processSerpOk_events (req : HuntReq) (o : Oracle) (qi : Nat) (d : SerpData)
    (st : HuntState) (e : Ev) (h : e ∈ (processSerpOk req o qi d st).2.1) :
    ∃ p, e = Ev.page qi p := by
  simp only [processSerpOk] at h
  exact pageLoop_events _ _ _ _ _ _ _ e h

/-! ## Lemmas: captcha propagation -/

theorem processSerpOk_snd (req : HuntReq) (o : Oracle) (qi : Nat) (d : SerpData)
    (st : HuntState) : (processSerpOk req o qi d st).2.2 = captchaSuspect d.html := rfl

theorem processSerpOk_captcha (req : HuntReq) (o : Oracle) (qi : Nat) (d : SerpData)
    (st : HuntState) :
    (processSerpOk req o qi d st).1.captchaTriggered =
      (st.captchaTriggered || captchaSuspect d.html) := by
  simp only [processSerpOk]
  split_ifs <;>
    simp_all [pageLoop_captcha]

theorem processSerpOk_fbUsed (req : HuntReq) (o : Oracle) (qi : Nat) (d : SerpData)
    (st : HuntState) :
    (processSerpOk req o qi d st).1.fallbackUsed = st.fallbackUsed := by
  simp only [processSerpOk]
  split_ifs <;> simp_all [pageLoop_fbUsed]

theorem processSerpOk_blocked (req : HuntReq) (o : Oracle) (qi : Nat) (d : SerpData)
    (st : HuntState) :
    (processSerpOk req o qi d st).1.bingBlockedEveryQuery =
      (if (extractSerpLinks d.selectorHrefs req.maxUrlsPerQuery).isEmpty
       then st.bingBlockedEveryQuery else false) := by
  simp only [processSerpOk]
  split_ifs <;> simp_all [pageLoop_blocked]

/-! ## Lemmas: scenario equations for one `queryLoop` step -/

theorem queryLoop_cons_budget (o : Oracle) (req : HuntReq) (q : String) (t : List String)
    (qi : Nat) (st : HuntState)
    (hb : budgetReached req.globalUrlBudget st.totalVisited = true) :
    queryLoop o req (q :: t) qi st = (st, []) := by
  simp [queryLoop, hb]

theorem queryLoop_cons_err (o : Oracle) (req : HuntReq) (q : String) (t : List String)
    (qi : Nat) (st : HuntState) (msg : String)
    (hb : ¬budgetReached req.globalUrlBudget st.totalVisited = true)
    (hser : o.serp qi = Fetch.err msg) :
    queryLoop o req (q :: t) qi st =
      ((queryLoop o req t (qi + 1) (serpFailState q msg qi st)).1,
       Ev.serp qi :: (queryLoop o req t (qi + 1) (serpFailState q msg qi st)).2) := by
  simp [queryLoop, hb, hser]

theorem queryLoop_cons_ok_stop (o : Oracle) (req : HuntReq) (q : String)
    (t : List String) (qi : Nat) (st : HuntState) (d : SerpData)
    (hb : ¬budgetReached req.globalUrlBudget st.totalVisited = true)
    (hser : o.serp qi = Fetch.ok d)
    (hcap : (processSerpOk req o qi d st).2.2 = true) :
    queryLoop o req (q :: t) qi st =
      ((processSerpOk req o qi d st).1,
       Ev.serp qi :: (processSerpOk req o qi d st).2.1) := by
  simp [queryLoop, hb, hser, hcap]

theorem queryLoop_cons_ok_go (o : Oracle) (req : HuntReq) (q : String)
    (t : List String) (qi : Nat) (st : HuntState) (d : SerpData)
    (hb : ¬budgetReached req.globalUrlBudget st.totalVisited = true)
    (hser : o.serp qi = Fetch.ok d)
    (hcap : (processSerpOk req o qi d st).2.2 = false) :
    queryLoop o req (q :: t) qi st =
      ((queryLoop o req t (qi + 1) (processSerpOk req o qi d st).1).1,
       Ev.serp qi :: ((processSerpOk req o qi d st).2.1 ++
         (queryLoop o req t (qi + 1) (processSerpOk req o qi d st).1).2)) := by
  simp [queryLoop, hb, hser, hcap]

theorem queryLoop_captcha_mono (o : Oracle) (req : HuntReq) (qs : List String) :
    ∀ (qi : Nat) (st : HuntState), st.captchaTriggered = true →
      (queryLoop o req qs qi st).1.captchaTriggered = true := by
  induction qs with
  | nil => intro qi st h; simpa [queryLoop] using h
  | cons q t ih =>
    intro qi st h
    unfold queryLoop
    split
    · simpa using h
    · split
      · exact ih (qi + 1) _ (by simpa using h)
      · next d heq =>
        have hc : (processSerpOk req o qi d st).1.captchaTriggered = true := by
          rw [processSerpOk_captcha, h]; simp
        simp only []
        split
        · exact hc
        · exact ih (qi + 1) _ hc

/-- If a processed SERP was captcha-suspect, the final loop state has
`captchaTriggered = true`. -/
theorem queryLoop_captcha_sets (o : Oracle) (req : HuntReq) (qs : List String) :
    ∀ (qi : Nat) (st : HuntState) (i : Nat) (d : SerpData),
      o.serp i = Fetch.ok d → captchaSuspect d.html = true →
      Ev.serp i ∈ (queryLoop o req qs qi st).2 →
      (queryLoop o req qs qi st).1.captchaTriggered = true := by
  induction qs with
  | nil => intro qi st i d _ _ hm; simp [queryLoop] at hm
  | cons q t ih =>
    intro qi st i d hok hcap hm
    by_cases hb : budgetReached req.globalUrlBudget st.totalVisited
    · rw [queryLoop_cons_budget o req q t qi st hb] at hm
      simp at hm
    · cases hser : o.serp qi with
      | err msg =>
        rw [queryLoop_cons_err o req q t qi st msg hb hser] at hm ⊢
        rcases List.mem_cons.1 hm with hj | hm2
        · have hiq : i = qi := by simpa using hj
          rw [hiq, hser] at hok
          exact absurd hok (by simp)
        · exact ih (qi + 1) _ i d hok hcap hm2
      | ok d0 =>
        by_cases hstop : (processSerpOk req o qi d0 st).2.2 = true
        · rw [queryLoop_cons_ok_stop o req q t qi st d0 hb hser hstop] at hm ⊢
          rw [processSerpOk_captcha]
          by_cases hiq : i = qi
          · rw [hiq, hser] at hok
            have hd : d0 = d := by injection hok
            rw [← hd] at hcap
            rw [hcap]
            simp
          · rcases List.mem_cons.1 hm with hj | hm2
            · exact absurd (by simpa using hj) hiq
            · rcases processSerpOk_events req o qi d0 st _ hm2 with ⟨p, hp⟩
              exact absurd hp (by simp)
        · rw [queryLoop_cons_ok_go o req q t qi st d0 hb hser
            (Bool.not_eq_true _ ▸ hstop)] at hm ⊢
          by_cases hiq : i = qi
          · rw [hiq, hser] at hok
            have hd : d0 = d := by injection hok
            rw [processSerpOk_snd, hd, hcap] at hstop
            exact absurd rfl hstop
          · rcases List.mem_cons.1 hm with hj | hm2
            · exact absurd (by simpa using hj) hiq
            · rcases List.mem_append.1 hm2 with hpe | hr2
              · rcases processSerpOk_events req o qi d0 st _ hpe with ⟨p, hp⟩
                exact absurd hp (by simp)
              · exact ih (qi + 1) _ i d hok hcap hr2

/-- Every `serp` event of the loop is at an index `≥ qi`, and no processed
SERP strictly before it was captcha-suspect: the captcha short-circuit
abandons all later queries. -/
theorem queryLoop_no_later_serp (o : Oracle) (req : HuntReq) (qs : List String) :
    ∀ (qi : Nat) (st : HuntState) (j : Nat),
      Ev.serp j ∈ (queryLoop o req qs qi st).2 →
      qi ≤ j ∧ ∀ i d, qi ≤ i → i < j → o.serp i = Fetch.ok d →
        captchaSuspect d.html = false := by
  induction qs with
  | nil => intro qi st j hm; simp [queryLoop] at hm
  | cons q t ih =>
    intro qi st j hm
    by_cases hb : budgetReached req.globalUrlBudget st.totalVisited
    · rw [queryLoop_cons_budget o req q t qi st hb] at hm
      simp at hm
    · cases hser : o.serp qi with
      | err msg =>
        rw [queryLoop_cons_err o req q t qi st msg hb hser] at hm
        rcases List.mem_cons.1 hm with hj | hm2
        · have hji : j = qi := by simpa using hj
          subst hji
          exact ⟨le_refl _, fun i d hge hlt _ => absurd hlt (by omega)⟩
        · have hih := ih (qi + 1) _ j hm2
          refine ⟨by omega, fun i d hge hlt hok => ?_⟩
          by_cases hiq : i = qi
          · rw [hiq, hser] at hok
            exact absurd hok (by simp)
          · exact hih.2 i d (by omega) hlt hok
      | ok d0 =>
        by_cases hstop : (processSerpOk req o qi d0 st).2.2 = true
        · rw [queryLoop_cons_ok_stop o req q t qi st d0 hb hser hstop] at hm
          rcases List.mem_cons.1 hm with hj | hm2
          · have hji : j = qi := by simpa using hj
            subst hji
            exact ⟨le_refl _, fun i d hge hlt _ => absurd hlt (by omega)⟩
          · rcases processSerpOk_events req o qi d0 st _ hm2 with ⟨p, hp⟩
            exact absurd hp (by simp)
        · rw [queryLoop_cons_ok_go o req q t qi st d0 hb hser
            (Bool.not_eq_true _ ▸ hstop)] at hm
          rcases List.mem_cons.1 hm with hj | hm2
          · have hji : j = qi := by simpa using hj
            subst hji
            exact ⟨le_refl _, fun i d hge hlt _ => absurd hlt (by omega)⟩
          · rcases List.mem_append.1 hm2 with hpe | hr2
            · rcases processSerpOk_events req o qi d0 st _ hpe with ⟨p, hp⟩
              exact absurd hp (by simp)
            · have hih := ih (qi + 1) _ j hr2
              refine ⟨by omega, fun i d hge hlt hok => ?_⟩
              by_cases hiq : i = qi
              · rw [hiq, hser] at hok
                have hd : d0 = d := by injection hok
                rw [processSerpOk_snd] at hstop
                rw [← hd]
                exact Bool.not_eq_true _ ▸ hstop
              · exact hih.2 i d (by omega) hlt hok

/-- The query loop never emits a fallback event. -/
theorem queryLoop_no_fallback (o : Oracle) (req : HuntReq) (qs : List String) :
    ∀ (qi : Nat) (st : HuntState), Ev.fallback ∉ (queryLoop o req qs qi st).2 := by
  induction qs with
  | nil => intro qi st; simp [queryLoop]
  | cons q t ih =>
    intro qi st hm
    by_cases hb : budgetReached req.globalUrlBudget st.totalVisited
    · rw [queryLoop_cons_budget o req q t qi st hb] at hm
      simp at hm
    · cases hser : o.serp qi with
      | err msg =>
        rw [queryLoop_cons_err o req q t qi st msg hb hser] at hm
        rcases List.mem_cons.1 hm with hj | hm2
        · exact absurd hj (by simp)
        · exact ih (qi + 1) _ hm2
      | ok d0 =>
        by_cases hstop : (processSerpOk req o qi d0 st).2.2 = true
        · rw [queryLoop_cons_ok_stop o req q t qi st d0 hb hser hstop] at hm
          rcases List.mem_cons.1 hm with hj | hm2
          · exact absurd hj (by simp)
          · rcases processSerpOk_events req o qi d0 st _ hm2 with ⟨p, hp⟩
            exact absurd hp (by simp)
        · rw [queryLoop_cons_ok_go o req q t qi st d0 hb hser
            (Bool.not_eq_true _ ▸ hstop)] at hm
          rcases List.mem_cons.1 hm with hj | hm2
          · exact absurd hj (by simp)
          · rcases List.mem_append.1 hm2 with hpe | hr2
            · rcases processSerpOk_events req o qi d0 st _ hpe with ⟨p, hp⟩
              exact absurd hp (by simp)
            · exact ih (qi + 1) _ hr2

/-! ## Lemmas: the blocked-every-query flag -/

theorem serpFailState_blocked (q msg : String) (qi : Nat) (st : HuntState) :
    (serpFailState q msg qi st).bingBlockedEveryQuery = st.bingBlockedEveryQuery := rfl

theorem queryLoop_blocked_false (o : Oracle) (req : HuntReq) (qs : List String) :
    ∀ (qi : Nat) (st : HuntState), st.bingBlockedEveryQuery = false →
      (queryLoop o req qs qi st).1.bingBlockedEveryQuery = false := by
  induction qs with
  | nil => intro qi st h; simpa [queryLoop] using h
  | cons q t ih =>
    intro qi st h
    by_cases hb : budgetReached req.globalUrlBudget st.totalVisited
    · rw [queryLoop_cons_budget o req q t qi st hb]
      exact h
    · cases hser : o.serp qi with
      | err msg =>
        rw [queryLoop_cons_err o req q t qi st msg hb hser]
        exact ih (qi + 1) _ (by rw [serpFailState_blocked]; exact h)
      | ok d0 =>
        have hblk : (processSerpOk req o qi d0 st).1.bingBlockedEveryQuery = false := by
          rw [processSerpOk_blocked]
          split <;> simp [h]
        by_cases hstop : (processSerpOk req o qi d0 st).2.2 = true
        · rw [queryLoop_cons_ok_stop o req q t qi st d0 hb hser hstop]
          exact hblk
        · rw [queryLoop_cons_ok_go o req q t qi st d0 hb hser
            (Bool.not_eq_true _ ▸ hstop)]
          exact ih (qi + 1) _ hblk

/-- Starting from `bingBlockedEveryQuery = true`, the flag stays `true` iff
every successfully fetched SERP that the loop processed yielded zero
extracted links. -/
theorem queryLoop_blocked_iff (o : Oracle) (req : HuntReq) (qs : List String) :
    ∀ (qi : Nat) (st : HuntState), st.bingBlockedEveryQuery = true →
      ((queryLoop o req qs qi st).1.bingBlockedEveryQuery = true ↔
        ∀ i d, Ev.serp i ∈ (queryLoop o req qs qi st).2 → o.serp i = Fetch.ok d →
          extractSerpLinks d.selectorHrefs req.maxUrlsPerQuery = []) := by
  induction qs with
  | nil =>
    intro qi st h
    simp [queryLoop, h]
  | cons q t ih =>
    intro qi st h
    by_cases hb : budgetReached req.globalUrlBudget st.totalVisited
    · rw [queryLoop_cons_budget o req q t qi st hb]
      simp [h]
    · cases hser : o.serp qi with
      | err msg =>
        rw [queryLoop_cons_err o req q t qi st msg hb hser]
        have hih := ih (qi + 1) (serpFailState q msg qi st)
          (by rw [serpFailState_blocked]; exact h)
        constructor
        · intro hL i d hm hok
          rcases List.mem_cons.1 hm with hj | hm2
          · have hiq : i = qi := by simpa using hj
            rw [hiq, hser] at hok
            exact absurd hok (by simp)
          · exact hih.1 hL i d hm2 hok
        · intro hR
          exact hih.2 fun i d hm2 hok => hR i d (List.mem_cons.2 (Or.inr hm2)) hok
      | ok d0 =>
        by_cases hL0 : extractSerpLinks d0.selectorHrefs req.maxUrlsPerQuery = []
        · have hblk : (processSerpOk req o qi d0 st).1.bingBlockedEveryQuery = true := by
            rw [processSerpOk_blocked, hL0]
            simpa using h
          by_cases hstop : (processSerpOk req o qi d0 st).2.2 = true
          · rw [queryLoop_cons_ok_stop o req q t qi st d0 hb hser hstop]
            refine iff_of_true hblk ?_
            intro i d hm hok
            rcases List.mem_cons.1 hm with hj | hm2
            · have hiq : i = qi := by simpa using hj
              rw [hiq, hser] at hok
              have hd : d0 = d := by injection hok
              rw [← hd]
              exact hL0
            · rcases processSerpOk_events req o qi d0 st _ hm2 with ⟨p, hp⟩
              exact absurd hp (by simp)
          · rw [queryLoop_cons_ok_go o req q t qi st d0 hb hser
              (Bool.not_eq_true _ ▸ hstop)]
            have hih := ih (qi + 1) _ hblk
            constructor
            · intro hLp i d hm hok
              rcases List.mem_cons.1 hm with hj | hm2
              · have hiq : i = qi := by simpa using hj
                rw [hiq, hser] at hok
                have hd : d0 = d := by injection hok
                rw [← hd]
                exact hL0
              · rcases List.mem_append.1 hm2 with hpe | hr2
                · rcases processSerpOk_events req o qi d0 st _ hpe with ⟨p, hp⟩
                  exact absurd hp (by simp)
                · exact hih.1 hLp i d hr2 hok
            · intro hR
              exact hih.2 fun i d hm2 hok =>
                hR i d (List.mem_cons.2 (Or.inr (List.mem_append.2 (Or.inr hm2)))) hok
        · have hblk : (processSerpOk req o qi d0 st).1.bingBlockedEveryQuery = false := by
            rw [processSerpOk_blocked]
            have : (extractSerpLinks d0.selectorHrefs req.maxUrlsPerQuery).isEmpty = false := by
              simpa [List.isEmpty_iff] using hL0
            rw [this]
            simp
          by_cases hstop : (processSerpOk req o qi d0 st).2.2 = true
          · rw [queryLoop_cons_ok_stop o req q t qi st d0 hb hser hstop]
            refine iff_of_false (by simp [hblk]) ?_
            intro hR
            exact hL0 (hR qi d0 (List.mem_cons.2 (Or.inl rfl)) hser)
          · rw [queryLoop_cons_ok_go o req q t qi st d0 hb hser
              (Bool.not_eq_true _ ▸ hstop)]
            refine iff_of_false ?_ ?_
            · rw [queryLoop_blocked_false o req t (qi + 1) _ hblk]
              simp
            · intro hR
              exact hL0 (hR qi d0 (List.mem_cons.2 (Or.inl rfl)) hser)

/-! ## Lemmas: the fallback phase -/

theorem fallbackPhase_fields (o : Oracle) (req : HuntReq) (st : HuntState) :
    (fallbackPhase o req st).1.pageHR = st.pageHR ∧
      (fallbackPhase o req st).1.pageGeneral = st.pageGeneral ∧
      (fallbackPhase o req st).1.scrapedUrls = st.scrapedUrls ∧
      (fallbackPhase o req st).1.totalVisited = st.totalVisited ∧
      (fallbackPhase o req st).1.captchaTriggered = st.captchaTriggered ∧
      (fallbackPhase o req st).1.failedUrls = st.failedUrls ∧
      (fallbackPhase o req st).1.allSearchUrls = st.allSearchUrls := by
  unfold fallbackPhase
  repeat' split
  all_goals simp

theorem fallbackPhase_events (o : Oracle) (req : HuntReq) (st : HuntState) :
    (fallbackPhase o req st).2 =
      (if st.bingBlockedEveryQuery then [Ev.fallback] else []) := by
  unfold fallbackPhase
  repeat' split
  all_goals simp_all

/-! ## Lemmas: no generic-prefixed address survives a `hrFocus = true` run -/

theorem initState_noGen : NoGenericSets initState := by
  intro e he
  simp [initState] at he

theorem mailtoStep_noGen (title : String) (acc : HuntState × Nat × Nat × Nat)
    (m : String) (h : NoGenericSets acc.1) :
    NoGenericSets (mailtoStep true title acc m).1 := by
  simp only [mailtoStep]
  split_ifs
  · exact h
  · exact h
  · intro e he
    rcases he with h1 | h1 | h1 | h1
    · exact h e (Or.inl h1)
    · exact h e (Or.inr (Or.inl h1))
    · rcases mem_setAddAll h1 with h2 | h2
      · exact h e (Or.inr (Or.inr (Or.inl h2)))
      · exact classify_hr_nonGeneric h2
    · rcases mem_setAddAll h1 with h2 | h2
      · exact h e (Or.inr (Or.inr (Or.inr h2)))
      · exact classify_general_nonGeneric h2
  · intro e he
    exact h e he

theorem mailtoFold_noGen (title : String) (ms : List String) :
    ∀ (acc : HuntState × Nat × Nat × Nat), NoGenericSets acc.1 →
      NoGenericSets (ms.foldl (mailtoStep true title) acc).1 := by
  induction ms with
  | nil => intro acc h; exact h
  | cons m t ih =>
    intro acc h
    rw [List.foldl_cons]
    exact ih _ (mailtoStep_noGen title acc m h)

theorem processPage_noGen (qi : Nat) (link : String) (fr : Fetch PageData)
    (st : HuntState) (h : NoGenericSets st) :
    NoGenericSets (processPage true qi link fr st) := by
  cases fr with
  | err msg => intro e he; exact h e he
  | ok pd =>
    simp only [processPage]
    split_ifs with hok hemp
    · intro e he
      exact h e he
    · -- body emails empty: only the mailto fold and the scrapedUrls push
      intro e he
      refine mailtoFold_noGen pd.title pd.mailtoHrefs _ ?_ e he
      intro e' he'
      exact h e' he'
    · -- body emails classified and merged, then the mailto fold
      intro e he
      refine mailtoFold_noGen pd.title pd.mailtoHrefs _ ?_ e he
      intro e' he'
      rcases he' with h1 | h1 | h1 | h1
      · exact h e' (Or.inl h1)
      · exact h e' (Or.inr (Or.inl h1))
      · rcases mem_setAddAll h1 with h2 | h2
        · exact h e' (Or.inr (Or.inr (Or.inl h2)))
        · exact classify_hr_nonGeneric h2
      · rcases mem_setAddAll h1 with h2 | h2
        · exact h e' (Or.inr (Or.inr (Or.inr h2)))
        · exact classify_general_nonGeneric h2

theorem pageLoop_noGen (bud : Option Nat) (po : Nat → Fetch PageData) (qi : Nat)
    (links : List String) :
    ∀ (pi : Nat) (st : HuntState), NoGenericSets st →
      NoGenericSets (pageLoop true bud po qi pi links st).1 := by
  induction links with
  | nil => intro pi st h; exact h
  | cons l t ih =>
    intro pi st h
    unfold pageLoop
    split
    · exact h
    · exact ih (pi + 1) _ (processPage_noGen qi l (po pi) st h)

theorem processSerpOk_noGen (req : HuntReq) (o : Oracle) (qi : Nat) (d : SerpData)
    (st : HuntState) (hf : req.hrFocus = true) (h : NoGenericSets st) :
    NoGenericSets (processSerpOk req o qi d st).1 := by
  simp only [processSerpOk, hf]
  split_ifs
  all_goals
    refine pageLoop_noGen req.globalUrlBudget (o.page qi) qi _ 0 _ ?_
  all_goals intro e he
  all_goals rcases he with h1 | h1 | h1 | h1
  all_goals
    first
      | exact h e (Or.inl h1)
      | exact h e (Or.inr (Or.inl h1))
      | exact h e (Or.inr (Or.inr (Or.inl h1)))
      | exact h e (Or.inr (Or.inr (Or.inr h1)))
      | (rcases mem_setAddAll h1 with h2 | h2
         · first
             | exact h e (Or.inl h2)
             | exact h e (Or.inr (Or.inl h2))
         · first
             | exact classify_hr_nonGeneric h2
             | exact classify_general_nonGeneric h2)

theorem queryLoop_noGen (o : Oracle) (req : HuntReq) (hf : req.hrFocus = true)
    (qs : List String) :
    ∀ (qi : Nat) (st : HuntState), NoGenericSets st →
      NoGenericSets (queryLoop o req qs qi st).1 := by
  induction qs with
  | nil => intro qi st h; exact h
  | cons q t ih =>
    intro qi st h
    by_cases hb : budgetReached req.globalUrlBudget st.totalVisited
    · rw [queryLoop_cons_budget o req q t qi st hb]
      exact h
    · cases hser : o.serp qi with
      | err msg =>
        rw [queryLoop_cons_err o req q t qi st msg hb hser]
        exact ih (qi + 1) _ (fun e he => h e he)
      | ok d0 =>
        have hgen := processSerpOk_noGen req o qi d0 st hf h
        by_cases hstop : (processSerpOk req o qi d0 st).2.2 = true
        · rw [queryLoop_cons_ok_stop o req q t qi st d0 hb hser hstop]
          exact hgen
        · rw [queryLoop_cons_ok_go o req q t qi st d0 hb hser
            (Bool.not_eq_true _ ▸ hstop)]
          exact ih (qi + 1) _ hgen

theorem fallbackPhase_noGen (o : Oracle) (req : HuntReq) (st : HuntState)
    (hf : req.hrFocus = true) (h : NoGenericSets st) :
    NoGenericSets (fallbackPhase o req st).1 := by
  simp only [fallbackPhase, hf]
  repeat' split
  · exact h
  · intro e he
    rcases he with h1 | h1 | h1 | h1
    · rcases mem_setAddAll h1 with h2 | h2
      · exact h e (Or.inl h2)
      · exact classify_hr_nonGeneric h2
    · rcases mem_setAddAll h1 with h2 | h2
      · exact h e (Or.inr (Or.inl h2))
      · exact classify_general_nonGeneric h2
    · exact h e (Or.inr (Or.inr (Or.inl h1)))
    · exact h e (Or.inr (Or.inr (Or.inr h1)))
  · exact h

/-! ## Lemmas: the query builder -/

theorem coreQueries_ne (q : String) (c : Option String) :
    bingCoreQuery1 q c ≠ bingCoreQuery2 q c := by
  intro h
  have h2 := congrArg String.length h
  simp only [bingCoreQuery1, bingCoreQuery2, String.length_append] at h2
  have e1 : ("\" email contact " : String).length = 16 := rfl
  have e2 : ("\" (\"email us\" OR \"contact us\") " : String).length = 31 := rfl
  rw [e1, e2] at h2
  omega

theorem buildBingQueries_take_two (q : String) (f : Bool) (c : Option String) :
    (buildBingQueries q f c).take 2 = [bingCoreQuery1 q c, bingCoreQuery2 q c] := by
  unfold buildBingQueries
  cases f
  · exact jsSetDedup_take_two [] (coreQueries_ne q c)
  · exact jsSetDedup_take_two _ (coreQueries_ne q c)

/-! ## Lemmas: the SERP link cascade -/

theorem serpAddSelector_mem {acc : List String} {sel : List String} {u : String}
    (h : u ∈ serpAddSelector acc sel) : u ∈ acc ∨ u ∈ sel := by
  induction sel generalizing acc with
  | nil => exact Or.inl h
  | cons s t ih =>
    unfold serpAddSelector at h ih
    rw [List.foldl_cons] at h
    rcases ih h with h2 | h2
    · split at h2
      · rcases mem_setAdd h2 with h3 | h3
        · exact Or.inl h3
        · exact Or.inr (by simp [h3])
      · exact Or.inl h2
    · exact Or.inr (by simp [h2])

theorem serpAddSelector_nodup {acc : List String} (h : acc.Nodup) (sel : List String) :
    (serpAddSelector acc sel).Nodup := by
  induction sel generalizing acc with
  | nil => exact h
  | cons s t ih =>
    unfold serpAddSelector at ih ⊢
    rw [List.foldl_cons]
    apply ih
    split
    · exact nodup_setAdd h s
    · exact h

theorem serpAddSelector_http {acc : List String} (h : ∀ u ∈ acc, isHttpAbs u = true)
    (sel : List String) : ∀ u ∈ serpAddSelector acc sel, isHttpAbs u = true := by
  induction sel generalizing acc with
  | nil => exact h
  | cons s t ih =>
    unfold serpAddSelector at ih ⊢
    rw [List.foldl_cons]
    apply ih
    split
    · next hs =>
      intro u hu
      rcases mem_setAdd hu with h2 | h2
      · exact h u h2
      · rw [h2]; exact hs
    · exact h

theorem extractSerpLinksGo_nodup (cap : Nat) (sels : List (List String)) :
    ∀ acc : List String, acc.Nodup → (extractSerpLinksGo cap acc sels).Nodup := by
  induction sels with
  | nil => intro acc h; exact h
  | cons s t ih =>
    intro acc h
    unfold extractSerpLinksGo
    simp only []
    split
    · exact serpAddSelector_nodup h s
    · exact ih _ (serpAddSelector_nodup h s)

theorem extractSerpLinksGo_http (cap : Nat) (sels : List (List String)) :
    ∀ acc : List String, (∀ u ∈ acc, isHttpAbs u = true) →
      ∀ u ∈ extractSerpLinksGo cap acc sels, isHttpAbs u = true := by
  induction sels with
  | nil => intro acc h; exact h
  | cons s t ih =>
    intro acc h
    unfold extractSerpLinksGo
    simp only []
    split
    · exact serpAddSelector_http h s
    · exact ih _ (serpAddSelector_http h s)

/-! ## Lemmas: final aggregation -/

theorem finalize_hr_mem {st : HuntState} {e : String}
    (h : e ∈ (finalizeResult st).hrEmails) : e ∈ st.snippetHR ∨ e ∈ st.pageHR := by
  simp only [finalizeResult] at h
  exact List.mem_append.1 (mem_jsSetDedup.1 h)

theorem finalize_gen_mem {st : HuntState} {e : String}
    (h : e ∈ (finalizeResult st).generalEmails) :
    (e ∈ st.snippetGeneral ∨ e ∈ st.pageGeneral) ∧
      e ∉ (finalizeResult st).hrEmails := by
  simp only [finalizeResult] at h ⊢
  have h2 := List.mem_filter.1 (mem_jsSetDedup.1 h)
  refine ⟨List.mem_append.1 h2.1, ?_⟩
  have h3 := h2.2
  simp only [Bool.not_eq_true'] at h3
  intro hmem
  rw [(memB_iff _ _).2 hmem] at h3
  cases h3

/-! ## Claim theorems -/

/-- C1, counterexample: a captcha-suspect SERP that still exposes a result
link.  The run flags the captcha and issues no further queries, but it still
visits the flagged SERP's own link (one `page` event after the `serp` event,
one `scrapedUrls` entry) — refuting "transitions immediately to DONE …
visiting no further pages for that run". -/
theorem c1_captcha_counterexample :
    captchaSuspect "captcha page b_captcha" = true ∧
    (runBingEmailHunt captchaLinkReq captchaLinkOracle).result.captchaTriggered = true ∧
    (runBingEmailHunt captchaLinkReq captchaLinkOracle).trace =
      [Ev.serp 0, Ev.page 0 0] ∧
    (runBingEmailHunt captchaLinkReq captchaLinkOracle).result.scrapedUrls =
      [⟨"http://a.example/", 1, false, ⟨0, 0, 0⟩⟩] := by
  decide

/-- Claim C1 (amended): when a fetched SERP is captcha-suspect, the run
merges what was gathered, reports `captchaTriggered = true`, and issues no
further queries — but page visits for the links of the captcha-flagged SERP
itself still happen before the run stops. -/
theorem c1_captcha_stop_amended (req : HuntReq) (o : Oracle) (i : Nat) (d : SerpData)
    (hok : o.serp i = Fetch.ok d) (hcap : captchaSuspect d.html = true)
    (hm : Ev.serp i ∈ (runBingEmailHunt req o).trace) :
    (runBingEmailHunt req o).result.captchaTriggered = true ∧
      ∀ j, i < j → Ev.serp j ∉ (runBingEmailHunt req o).trace := by
  have hev2 := fallbackPhase_events o req (queryLoop o req (huntQueries req) 0 initState).1
  have hserp_not_fb : ∀ k, Ev.serp k ∉
      (fallbackPhase o req (queryLoop o req (huntQueries req) 0 initState).1).2 := by
    intro k hk
    rw [hev2] at hk
    split at hk <;> simp at hk
  simp only [runBingEmailHunt] at hm ⊢
  have hm1 : Ev.serp i ∈ (queryLoop o req (huntQueries req) 0 initState).2 := by
    rcases List.mem_append.1 hm with h1 | h1
    · exact h1
    · exact absurd h1 (hserp_not_fb i)
  constructor
  · have hcl := queryLoop_captcha_sets o req (huntQueries req) 0 initState i d hok hcap hm1
    have hpres :=
      (fallbackPhase_fields o req (queryLoop o req (huntQueries req) 0 initState).1).2.2.2.2.1
    simp only [finalizeResult]
    rw [hpres, hcl]
  · intro j hij hmj
    have hmj1 : Ev.serp j ∈ (queryLoop o req (huntQueries req) 0 initState).2 := by
      rcases List.mem_append.1 hmj with h1 | h1
      · exact h1
      · exact absurd h1 (hserp_not_fb j)
    have hlater := queryLoop_no_later_serp o req (huntQueries req) 0 initState j hmj1
    have := hlater.2 i d (Nat.zero_le i) hij hok
    rw [hcap] at this
    cases this

/-- C1, witness: the amended theorem applied to the captcha-with-link run. -/
theorem c1_captcha_stop_amended_witness :
    (runBingEmailHunt captchaLinkReq captchaLinkOracle).result.captchaTriggered = true :=
  (c1_captcha_stop_amended captchaLinkReq captchaLinkOracle 0
    ⟨"captcha page b_captcha", "", [["http://a.example/"], [], [], [], []]⟩
    (by decide) (by decide) (by decide)).1

/-- Claim C2: for every request with a defined `globalUrlBudget`, the final
value of `totalVisited` — the number of page visits attempted by
`runBingEmailHunt` — never exceeds the budget, whatever the oracle supplies. -/
theorem c2_budget_invariant (req : HuntReq) (o : Oracle) (b : Nat)
    (hq : req.globalUrlBudget = some b) :
    (runBingEmailHunt req o).finalState.totalVisited ≤ b := by
  have h2 := queryLoop_budget o req b hq (huntQueries req) 0 initState (Nat.zero_le b)
  have h3 :=
    (fallbackPhase_fields o req (queryLoop o req (huntQueries req) 0 initState).1).2.2.2.1
  simp only [runBingEmailHunt]
  rw [h3]
  exact h2

/-- C2, witness: a run over two three-link SERPs against a budget of 2. -/
theorem c2_budget_invariant_witness :
    (runBingEmailHunt budgetReq budgetOracle).finalState.totalVisited ≤ 2 :=
  c2_budget_invariant budgetReq budgetOracle 2 (by decide)

/-- C3, counterexample: a captcha-suspect SERP with zero links.  The run
stops on captcha (`captchaTriggered = true`), yet the DuckDuckGo fallback is
still invoked and its snippet email merged — refuting "entered only if
QUERYING completes without a captcha stop". -/
theorem c3_fallback_counterexample :
    (runBingEmailHunt captchaNoLinkReq captchaNoLinkOracle).result.captchaTriggered
      = true ∧
    (runBingEmailHunt captchaNoLinkReq captchaNoLinkOracle).trace =
      [Ev.serp 0, Ev.fallback] ∧
    (runBingEmailHunt captchaNoLinkReq captchaNoLinkOracle).result.generalEmails =
      ["fb@dd.example"] := by
  decide

/-- Claim C3 (amended): the secondary-engine fallback is invoked iff every
SERP the primary loop processed yielded zero extracted links — regardless of
whether the loop stopped on captcha.  When invoked it is invoked exactly once
(the fallback phase emits at most one event, and the query loop emits none),
and it merges only snippet-level classified emails: the page accumulators,
visit records and visit counter are unchanged by the fallback phase. -/
theorem c3_fallback_amended (req : HuntReq) (o : Oracle) :
    ((fallbackPhase o req (queryLoop o req (huntQueries req) 0 initState).1).2 =
      if (queryLoop o req (huntQueries req) 0 initState).1.bingBlockedEveryQuery
      then [Ev.fallback] else []) ∧
    ((queryLoop o req (huntQueries req) 0 initState).1.bingBlockedEveryQuery = true ↔
      ∀ i d, Ev.serp i ∈ (queryLoop o req (huntQueries req) 0 initState).2 →
        o.serp i = Fetch.ok d →
        extractSerpLinks d.selectorHrefs req.maxUrlsPerQuery = []) ∧
    Ev.fallback ∉ (queryLoop o req (huntQueries req) 0 initState).2 ∧
    (runBingEmailHunt req o).trace =
      (queryLoop o req (huntQueries req) 0 initState).2 ++
        (fallbackPhase o req (queryLoop o req (huntQueries req) 0 initState).1).2 ∧
    (fallbackPhase o req (queryLoop o req (huntQueries req) 0 initState).1).1.pageHR =
      (queryLoop o req (huntQueries req) 0 initState).1.pageHR ∧
    (fallbackPhase o req (queryLoop o req (huntQueries req) 0 initState).1).1.pageGeneral
      = (queryLoop o req (huntQueries req) 0 initState).1.pageGeneral ∧
    (fallbackPhase o req (queryLoop o req (huntQueries req) 0 initState).1).1.scrapedUrls
      = (queryLoop o req (huntQueries req) 0 initState).1.scrapedUrls ∧
    (fallbackPhase o req (queryLoop o req (huntQueries req) 0 initState).1).1.totalVisited
      = (queryLoop o req (huntQueries req) 0 initState).1.totalVisited := by
  have hfields :=
    fallbackPhase_fields o req (queryLoop o req (huntQueries req) 0 initState).1
  refine ⟨fallbackPhase_events o req _,
    queryLoop_blocked_iff o req (huntQueries req) 0 initState rfl,
    queryLoop_no_fallback o req (huntQueries req) 0 initState,
    rfl, hfields.1, hfields.2.1, hfields.2.2.1, hfields.2.2.2.1⟩

/-- C3, witness: the amended theorem applied to the captcha-with-no-links
run (whose fallback fires exactly once). -/
theorem c3_fallback_amended_witness :
    (fallbackPhase captchaNoLinkOracle captchaNoLinkReq
        (queryLoop captchaNoLinkOracle captchaNoLinkReq
          (huntQueries captchaNoLinkReq) 0 initState).1).2 =
      if (queryLoop captchaNoLinkOracle captchaNoLinkReq
            (huntQueries captchaNoLinkReq) 0 initState).1.bingBlockedEveryQuery
      then [Ev.fallback] else [] :=
  (c3_fallback_amended captchaNoLinkReq captchaNoLinkOracle).1

/-- Claim C4: in every `hrFocus = true` run, the final `hrEmails` and
`generalEmails` lists are disjoint, and no address starting with a generic
role prefix (e.g. `info@`) appears in either list. -/
theorem c4_hr_disjoint_no_generic (req : HuntReq) (o : Oracle)
    (hf : req.hrFocus = true) :
    (∀ e, e ∈ (runBingEmailHunt req o).result.hrEmails →
        e ∉ (runBingEmailHunt req o).result.generalEmails) ∧
    (∀ e, e ∈ (runBingEmailHunt req o).result.hrEmails ∨
          e ∈ (runBingEmailHunt req o).result.generalEmails →
        isGenericAddr e = false) := by
  have hNoGen : NoGenericSets
      (fallbackPhase o req (queryLoop o req (huntQueries req) 0 initState).1).1 :=
    fallbackPhase_noGen o req _ hf
      (queryLoop_noGen o req hf (huntQueries req) 0 initState initState_noGen)
  simp only [runBingEmailHunt]
  constructor
  · intro e hhr hgen
    exact (finalize_gen_mem hgen).2 hhr
  · intro e he
    rcases he with h1 | h1
    · rcases finalize_hr_mem h1 with h2 | h2
      · exact hNoGen e (Or.inl h2)
      · exact hNoGen e (Or.inr (Or.inr (Or.inl h2)))
    · rcases (finalize_gen_mem h1).1 with h2 | h2
      · exact hNoGen e (Or.inr (Or.inl h2))
      · exact hNoGen e (Or.inr (Or.inr (Or.inr h2)))

/-- C4, witness: in the concrete HR-focused run, the harvested HR address is
not in the general list. -/
theorem c4_hr_disjoint_no_generic_witness :
    "hr@acme.example" ∉ (runBingEmailHunt hrRunReq hrRunOracle).result.generalEmails :=
  (c4_hr_disjoint_no_generic hrRunReq hrRunOracle rfl).1 "hr@acme.example" (by decide)

/-- C5, counterexample: `classifyEmails(["bob@x.com"], "careers", true)`.
The address has no HR keyword and no `firstname.lastname@` shape, so the
spec's rule files it as general; the code's extra `contextHas && hrFocus`
disjunct classifies it HR because the context contains a keyword. -/
theorem c5_classifier_counterexample :
    (classifyEmails ["bob@x.com"] "careers" true).hr = ["bob@x.com"] ∧
    (classifyEmails ["bob@x.com"] "careers" true).general = [] ∧
    (specClassifyEmails ["bob@x.com"] "careers" true).hr = [] ∧
    (specClassifyEmails ["bob@x.com"] "careers" true).general = ["bob@x.com"] := by
  decide

/-- Claim C5 (amended): `classifyEmails` behaves as follows.  A lower-cased
address with a generic role prefix is discarded under HR-focus and filed as
general otherwise.  Any other address is HR exactly when it contains an HR
keyword, OR the context contains an HR keyword and (the address has the
`firstname.lastname@` shape or HR-focus is set), OR it has the name shape
and HR-focus is set; the remaining addresses are general. -/
theorem c5_classifier_amended (es : List String) (ctx : String) (f : Bool) (e : String) :
    (e ∈ (classifyEmails es ctx f).hr ↔
      (∃ em ∈ es, e = jsToLower em) ∧ isGenericAddr e = false ∧
        (emailHasKeyword e
          || (contextHasKeyword (jsToLower ctx) && (namePatternTest e || f))
          || (namePatternTest e && f)) = true) ∧
    (e ∈ (classifyEmails es ctx f).general ↔
      (∃ em ∈ es, e = jsToLower em) ∧
        ((isGenericAddr e = true ∧ f = false) ∨
         (isGenericAddr e = false ∧
          (emailHasKeyword e
            || (contextHasKeyword (jsToLower ctx) && (namePatternTest e || f))
            || (namePatternTest e && f)) = false))) := by
  constructor
  · rw [mem_classify_hr]
    unfold classifyHrPred hrBranchCond
    simp only [Bool.and_eq_true, Bool.not_eq_true']
  · rw [mem_classify_general]
    unfold classifyGenPred hrBranchCond
    simp only [Bool.or_eq_true, Bool.and_eq_true, Bool.not_eq_true', Bool.not_eq_true]

/-- C5, witness: the amended characterization applied to a name-shaped
address under HR-focus. -/
theorem c5_classifier_amended_witness :
    "jane.doe@x.example" ∈ (classifyEmails ["Jane.Doe@X.example"] "" true).hr :=
  (c5_classifier_amended ["Jane.Doe@X.example"] "" true "jane.doe@x.example").1.mpr
    ⟨⟨"Jane.Doe@X.example", by simp, by decide⟩, by decide, by decide⟩

/-- C6, counterexample: extraction has no obfuscation pass, so the obfuscated
text yields nothing — in particular not `john@example.com`. -/
theorem c6_obfuscation_counterexample :
    "john@example.com" ∉ extractEmails "contact us at john [at] example [dot] com" := by
  decide

/-- Claim C6 (amended): `extractEmails` applies only the strict pattern, with
no normalization of bracketed `at`/`dot` tokens: the obfuscated input yields
no addresses at all, while the same address written literally is extracted. -/
theorem c6_obfuscation_amended :
    extractEmails "contact us at john [at] example [dot] com" = [] ∧
    extractEmails "contact us at john@example.com" = ["john@example.com"] := by
  decide

/-- C7, counterexample: for `bing.com/ck/a?u=httpx` the decoded parameter
`httpx` merely starts with `http`; it is not an absolute http(s) URL, yet it
is returned instead of the original — refuting "validate the final string is
an absolute http(s) URL". -/
theorem c7_redirect_counterexample :
    resolveBingRedirect "bing.com/ck/a?u=httpx" = "httpx" ∧
    "httpx" ≠ "bing.com/ck/a?u=httpx" ∧
    isHttpAbs "httpx" = false := by
  decide

/-- Claim C7 (amended): `resolveBingRedirect` never raises; a URL without the
wrapper pattern is returned unchanged, and otherwise the result is either
the original URL (on any decode failure or when the decoded value does not
begin with `http`) or the decoded value, which is only guaranteed to begin
with the four characters `http`. -/
theorem c7_redirect_amended (url : String) :
    (strContains url "bing.com/ck/a?" = false → resolveBingRedirect url = url) ∧
    (resolveBingRedirect url = url ∨
      jsStartsWith (resolveBingRedirect url) "http" = true) := by
  by_cases hc : strContains url "bing.com/ck/a?"
  · have hres : resolveBingRedirect url = url ∨
        jsStartsWith (resolveBingRedirect url) "http" = true := by
      unfold resolveBingRedirect
      rw [hc]
      simp only [Bool.not_true]
      rw [if_neg (by decide)]
      cases hm : matchUParam url.data with
      | none => exact Or.inl rfl
      | some cap =>
        simp only []
        cases hd : decodeURIComponentJs (String.mk cap) with
        | none => exact Or.inl rfl
        | some dec =>
          simp only []
          split
          all_goals split
          · next hh => exact Or.inr hh
          · exact Or.inl rfl
          · next hh => exact Or.inr hh
          · exact Or.inl rfl
    refine ⟨fun hfalse => ?_, hres⟩
    rw [hfalse] at hc
    exact absurd hc (by decide)
  · rw [Bool.not_eq_true] at hc
    have hres : resolveBingRedirect url = url := by
      unfold resolveBingRedirect
      rw [hc]
      simp
    exact ⟨fun _ => hres, Or.inl hres⟩

/-- C7, witness: the amended theorem applied to a non-wrapper URL. -/
theorem c7_redirect_amended_witness :
    resolveBingRedirect "http://plain.example/" = "http://plain.example/" :=
  (c7_redirect_amended "http://plain.example/").1 (by decide)

/-- Claim C8: for every base term, HR-focus flag and country, the builder's
output has no duplicates and its first two entries are the two core intent
phrases; for base term `Acme Corp`, `hrFocus = true`, country `morocco`, and
`maxQueries = 2`, the orchestrator consumes exactly the two core phrases. -/
theorem c8_query_builder :
    (∀ (q : String) (f : Bool) (c : Option String),
        (buildBingQueries q f c).Nodup ∧
        (buildBingQueries q f c).take 2 = [bingCoreQuery1 q c, bingCoreQuery2 q c]) ∧
    (buildBingQueries "Acme Corp" true (some "morocco")).length ≥ 2 ∧
    huntQueries acmeReq =
      ["\"Acme Corp\" email contact morocco",
       "\"Acme Corp\" (\"email us\" OR \"contact us\") morocco"] := by
  refine ⟨fun q f c => ⟨nodup_jsSetDedup _, buildBingQueries_take_two q f c⟩, ?_, ?_⟩
  · decide
  · decide

/-- C9, counterexample: with `maxUrlsPerQuery = 1` (cap 2), a single selector
carrying three absolute links — one on the engine's own domain — yields all
three: the engine-domain link is accumulated and the cap is exceeded,
refuting both "not on the search engine's own domain" and "stopping once the
cap is reached". -/
theorem c9_serp_links_counterexample :
    extractSerpLinks serpCapSelectors 1 =
      ["https://www.bing.com/a", "http://x.example/", "http://y.example/"] ∧
    "https://www.bing.com/a" ∈ extractSerpLinks serpCapSelectors 1 ∧
    (extractSerpLinks serpCapSelectors 1).length > 1 * 2 := by
  decide

/-- Claim C9 (amended): every accumulated link is unique and an absolute
http(s) URL (links on the engine's own domain are not excluded), and the cap
of twice `maxUrlsPerQuery` is checked only between selectors: once a
selector's pass reaches it, no further selector runs — but a single
selector's pass may exceed it. -/
theorem c9_serp_links_amended (sels : List (List String)) (m : Nat) :
    (extractSerpLinks sels m).Nodup ∧
    (∀ u ∈ extractSerpLinks sels m, isHttpAbs u = true) ∧
    (∀ l1 rest, sels = l1 :: rest → m * 2 ≤ (serpAddSelector [] l1).length →
      extractSerpLinks sels m = serpAddSelector [] l1) := by
  refine ⟨extractSerpLinksGo_nodup (m * 2) sels [] (List.nodup_nil),
    extractSerpLinksGo_http (m * 2) sels [] (by intro u hu; cases hu), ?_⟩
  intro l1 rest hsels hcap
  subst hsels
  unfold extractSerpLinks extractSerpLinksGo
  simp only []
  rw [if_pos hcap]

/-- C9, witness: the amended theorem's boundary-stop clause applied to the
three-link selector with cap 2. -/
theorem c9_serp_links_amended_witness :
    extractSerpLinks serpCapSelectors 1 =
      serpAddSelector []
        ["https://www.bing.com/a", "http://x.example/", "http://y.example/"] :=
  (c9_serp_links_amended serpCapSelectors 1).2.2
    ["https://www.bing.com/a", "http://x.example/", "http://y.example/"]
    [[], [], [], []] rfl (by decide)

/-- Claim C10: the mailto pass validates addresses with the shared global
`EMAIL_REGEX` whose `lastIndex` survives between `test` calls.  Testing
`jane@example.com` from `lastIndex 0` succeeds and moves `lastIndex` to 16;
testing the same string from 16 fails.  Consequently a page with the same
valid address in two consecutive mailto anchors accepts only the first: its
visit record counts one general address, not two — the mailto extraction is
not a pure function of the anchor being processed. -/
theorem c10_mailto_stateful :
    regexTestG 0 "jane@example.com" = (true, 16) ∧
    regexTestG 16 "jane@example.com" = (false, 0) ∧
    (runBingEmailHunt mailtoDupReq mailtoDupOracle).result.scrapedUrls =
      [⟨"http://a.example/", 1, false, ⟨0, 1, 1⟩⟩] ∧
    (runBingEmailHunt mailtoDupReq mailtoDupOracle).result.generalEmails =
      ["jane@example.com"] := by
  decide

end SmtpSendBack
